import Mathlib

set_option maxRecDepth 100000

/-!
Verification development for the OQuake / OASIS STAR integration layer
(star_sync.c and oquake_star_integration.c).

Modeling conventions, used consistently below:

* A C string (the bytes of a `char` buffer up to the terminating NUL) is
  modeled as `Str := List Char`.  A nullable `const char*` argument is an
  `Option Str`.
* Machine integers that the code only compares and clamps (`int quantity`
  and friends) are modeled as `Int`; counters that are always non-negative
  are `Nat`.  No arithmetic in the modeled paths can overflow for the
  values the claims are about.
* Function pointers (`on_done` callbacks) and `void* user_data` are opaque
  handles, modeled as `Option Nat` / `Nat`.
* The per-slot mutex makes every locked region of star_sync.c atomic; the
  state-machine model later in this file has exactly one transition per
  locked region.
* `q_strlcpy` between two buffers of the same size never truncates when the
  source itself was read out of a buffer of that same size; such copies are
  modeled as the identity.  Copies where the destination is strictly
  smaller (the 64-byte slot argument buffers, the 96-byte group label, the
  128-byte status line) keep their explicit truncation.
-/

/-- C strings: the characters stored before the terminating NUL. -/
abbrev Str := List Char

/-- Character content of a Lean string literal; used for C string constants. -/
def strOf (s : String) : Str := s.data

/-- The copy loop of `str_copy` (star_sync.c:26-31): `while (n + 1 < size && src[n])
copy`.  Returns the characters stored before the terminating NUL. -/
def copyLoop : List Char → Nat → List Char
  | [], _ => []
  | _ :: _, 0 => []
  | _ :: _, 1 => []
  | c :: cs, n + 2 => c :: copyLoop cs (n + 1)

/-- `str_copy` (star_sync.c:23-32).  `none` result means the destination buffer was
not written at all (the `if (!size) return;` path); `some content` means the buffer
now holds `content` followed by a NUL.  A NULL source is `none` on the input side. -/
def str_copy (src : Option Str) (size : Nat) : Option Str :=
  if size = 0 then none else some (copyLoop (src.getD []) size)

/-- Content written by `str_copy` into a buffer of `size ≥ 1` bytes. -/
def str_copy_content (src : Str) (size : Nat) : Str := copyLoop src size

theorem copyLoop_eq_take : ∀ (s : List Char) (n : Nat), copyLoop s n = s.take (n - 1)
  | [], n => by cases n <;> simp [copyLoop]
  | _ :: _, 0 => by simp [copyLoop]
  | _ :: _, 1 => by simp [copyLoop]
  | c :: cs, n + 2 => by
      simp only [copyLoop, copyLoop_eq_take cs (n + 1)]
      simp [List.take_succ_cons]

/-- star_api_result_t (star_api.h). -/
inductive star_api_result_t where
  | success
  | error_init_failed
  | error_not_initialized
  | error_network
  | error_invalid_param
  | error_api_error
  deriving DecidableEq

/-- star_item_t (star_api.h): one remote inventory item. -/
structure star_item where
  id : Str
  name : Str
  description : Str
  game_source : Str
  item_type : Str
  nft_id : Str
  quantity : Int
  deriving DecidableEq

/-- star_sync_local_item_t (star_sync.h) together with the integration layer's
parallel arrays `g_local_inventory_entries` / `g_local_inventory_synced` /
`g_star_sync_local_items`: because the mirror is rebuilt index-aligned before every
refresh and its `synced` flags are copied back index-aligned afterwards, the three
parallel C arrays are modeled as one list of records. -/
structure LocalItem where
  name : Str
  description : Str
  game_source : Str
  item_type : Str
  nft_id : Str
  quantity : Int
  synced : Bool
  deriving DecidableEq

/-! ### The auth job slot (star_sync.c:41-58, 112-139) -/

/-- The `g_auth_*` globals of star_sync.c. -/
structure AuthSlot where
  username_buf : Str
  password_buf : Str
  in_progress : Bool
  has_result : Bool
  success : Bool
  username_out : Str
  avatar_id_out : Str
  error_msg : Str
  on_done : Option Nat
  on_done_user : Nat
  deriving DecidableEq

/-- star_sync_auth_start (star_sync.c:112-139).  The returned Bool is true iff a
worker thread was spawned by this call. -/
def star_sync_auth_start (s : AuthSlot) (username password : Option Str)
    (on_done : Option Nat) (user_data : Nat) : AuthSlot × Bool :=
  if s.in_progress then (s, false)
  else
    ({ s with
        has_result := false
        on_done := on_done
        on_done_user := user_data
        username_buf := str_copy_content (username.getD []) 64
        password_buf := str_copy_content (password.getD []) 64
        in_progress := true },
     true)

/-- The credentials auth_thread_proc (star_sync.c:61-83) copies out of the slot and
passes to `star_api_authenticate`. -/
def auth_thread_input (s : AuthSlot) : Str × Str :=
  (str_copy_content s.username_buf 64, str_copy_content s.password_buf 64)

/-! ### The inventory job slot (star_sync.c:221-242, 805-841) -/

/-- The `g_inv_*` globals of star_sync.c. -/
structure InvSlot where
  local_items : List LocalItem
  default_game_source : Str
  in_progress : Bool
  has_result : Bool
  list : Option (List star_item)
  result : star_api_result_t
  error_msg : Str
  add_item_error : Str
  add_item_calls : Nat
  on_done : Option Nat
  on_done_user : Nat
  deriving DecidableEq

/-- star_sync_inventory_start (star_sync.c:805-841).  The returned Bool is true iff
a worker thread was spawned by this call. -/
def star_sync_inventory_start (s : InvSlot) (local_items : List LocalItem)
    (default_game_source : Option Str) (on_done : Option Nat) (on_done_user : Nat) :
    InvSlot × Bool :=
  if s.in_progress then (s, false)
  else
    ({ s with
        list := none
        has_result := false
        local_items := local_items
        default_game_source := str_copy_content (default_game_source.getD []) 64
        on_done := on_done
        on_done_user := on_done_user
        in_progress := true },
     true)

/-! ### The send-item job slot (star_sync.c:254-269, 404-488) -/

/-- The `g_send_*` globals of star_sync.c. -/
structure SendSlot where
  target_buf : Str
  item_name_buf : Str
  item_id_buf : Str
  quantity : Int
  to_clan : Bool
  in_progress : Bool
  has_result : Bool
  success : Bool
  error_msg : Str
  on_done : Option Nat
  on_done_user : Nat
  deriving DecidableEq

/-- star_sync_send_item_start (star_sync.c:458-488).  The returned Bool is true iff
a worker thread was spawned by this call. -/
def star_sync_send_item_start (s : SendSlot) (target item_name : Option Str)
    (quantity : Int) (to_clan : Bool) (item_id : Option Str)
    (on_done : Option Nat) (user_data : Nat) : SendSlot × Bool :=
  if s.in_progress then (s, false)
  else
    ({ s with
        has_result := false
        on_done := on_done
        on_done_user := user_data
        target_buf := str_copy_content (target.getD []) 256
        item_name_buf := str_copy_content (item_name.getD []) 256
        item_id_buf :=
          str_copy_content
            (match item_id with
             | some l => if l ≠ [] then l else []
             | none => []) 64
        quantity := if quantity < 1 then 1 else quantity
        to_clan := to_clan
        in_progress := true },
     true)

/-- Arguments that send_item_thread_proc (star_sync.c:404-456) passes to
`star_api_send_item_to_clan` / `star_api_send_item_to_avatar`.  An `item_id` of
`none` is a NULL pointer at the call site. -/
structure SendCall where
  to_clan : Bool
  target : Str
  item_name : Str
  quantity : Int
  item_id : Option Str
  deriving DecidableEq

/-- The remote call made by send_item_thread_proc from a slot state. -/
def send_item_thread_call (s : SendSlot) : SendCall :=
  let target := str_copy_content s.target_buf 256
  let item_name := str_copy_content s.item_name_buf 256
  let item_id := str_copy_content s.item_id_buf 64
  let qty := if s.quantity < 1 then 1 else s.quantity
  { to_clan := s.to_clan
    target := target
    item_name := item_name
    quantity := qty
    item_id := if item_id ≠ [] then some item_id else none }

/-! ### The use-item job slot (star_sync.c:271-288, 334-361) -/

/-- The `g_use_*` globals of star_sync.c. -/
structure UseSlot where
  item_name_buf : Str
  context_buf : Str
  in_progress : Bool
  has_result : Bool
  success : Bool
  error_msg : Str
  on_done : Option Nat
  on_done_user : Nat
  deriving DecidableEq

/-- star_sync_use_item_start (star_sync.c:334-361).  The returned Bool is true iff
a worker thread was spawned by this call. -/
def star_sync_use_item_start (s : UseSlot) (item_name context : Option Str)
    (on_done : Option Nat) (user_data : Nat) : UseSlot × Bool :=
  if s.in_progress then (s, false)
  else
    ({ s with
        has_result := false
        on_done := on_done
        on_done_user := user_data
        item_name_buf := str_copy_content (item_name.getD []) 256
        context_buf := str_copy_content (context.getD []) 128
        in_progress := true },
     true)

/-! ### Job-slot state machine (star_sync.c locked regions)

Every job slot (auth, inventory, send-item, use-item) manipulates the same four
pieces of lock-protected state in the same way; the machine below has one
transition per locked region of star_sync.c:

* `startBusy` / `startOk`: the busy check and argument store of
  `star_sync_*_start` (e.g. star_sync.c:112-139);
* `workerComplete`: the final critical section of the worker thread
  (e.g. inventory_thread_proc, star_sync.c:776-802), which clears
  `in_progress` and sets `has_result` in one locked region;
* `pumpInvoke`: the per-slot block of star_sync_pump (star_sync.c:584-668)
  in the case where it extracts and invokes the registered callback;
* `getResult`: `star_sync_*_get_result` in the case where a result is present.

`cb_registered` abstracts `g_*_on_done != NULL`; `worker_alive` is true from a
successful `start` until the worker's final critical section runs. -/

/-- Lock-protected flags of one job slot. -/
structure SlotMState where
  in_progress : Bool
  has_result : Bool
  cb_registered : Bool
  worker_alive : Bool
  deriving DecidableEq

/-- Events of the job-slot machine. -/
inductive SlotEvent where
  | startCall (cb : Bool)
  | workerComplete
  | pumpInvoke
  | getResult
  deriving DecidableEq

/-- One transition per locked region of star_sync.c (see the section comment). -/
inductive SlotStep : SlotMState → SlotEvent → SlotMState → Prop where
  | startBusy (s : SlotMState) (cb : Bool) (h : s.in_progress = true) :
      SlotStep s (SlotEvent.startCall cb) s
  | startOk (s : SlotMState) (cb : Bool) (h : s.in_progress = false) :
      SlotStep s (SlotEvent.startCall cb)
        { in_progress := true, has_result := false, cb_registered := cb,
          worker_alive := true }
  | workerComplete (s : SlotMState) (h : s.worker_alive = true) :
      SlotStep s SlotEvent.workerComplete
        { s with in_progress := false, has_result := true, worker_alive := false }
  | pumpInvoke (s : SlotMState) (h1 : s.has_result = true) (h2 : s.cb_registered = true) :
      SlotStep s SlotEvent.pumpInvoke { s with cb_registered := false }
  | getResult (s : SlotMState) (h : s.has_result = true) :
      SlotStep s SlotEvent.getResult { s with has_result := false }

/-- Initial slot state: all globals zero-initialized. -/
def slotInit : SlotMState :=
  { in_progress := false, has_result := false, cb_registered := false,
    worker_alive := false }

/-- States reachable from the zero-initialized slot. -/
inductive SlotReachable : SlotMState → Prop where
  | init : SlotReachable slotInit
  | step {s s' : SlotMState} {e : SlotEvent} (hr : SlotReachable s)
      (hs : SlotStep s e s') : SlotReachable s'

/-- Invariant: a stored result implies the worker has already cleared
`in_progress` (both are written in the same locked region). -/
def slotInv (s : SlotMState) : Prop :=
  s.has_result = true → s.in_progress = false

theorem slotInv_of_reachable {s : SlotMState} (h : SlotReachable s) : slotInv s := by
  induction h with
  | init => intro h; simp [slotInit] at h
  | step hr hs ih =>
      cases hs with
      | startBusy => exact ih
      | startOk => intro hh; simp at hh
      | workerComplete => intro _; rfl
      | pumpInvoke => exact ih
      | getResult => intro hh; simp at hh

/-! ### Inventory worker: push phase and fetch (star_sync.c:670-803) -/

/-- ASCII digit test, as in the explicit range checks of star_sync.c:716/724. -/
def isDigitCh (c : Char) : Bool := if '0' ≤ c ∧ c ≤ '9' then true else false

/-- True iff the name ends in `_NNNNNN` (star_sync.c:712-717): length at least 8,
an underscore 7 characters from the end, then six ASCII digits. -/
def endsWithEventSuffix (n : Str) : Bool :=
  if 8 ≤ n.length then
    match n.drop (n.length - 7) with
    | '_' :: ds => ds.all isDigitCh
    | _ => false
  else false

/-- One queued `star_api_queue_add_item` request (arguments in call order). -/
structure QueuedAdd where
  name : Str
  description : Str
  game_source : Str
  item_type : Str
  nft_id : Option Str
  quantity : Int
  stack : Int
  deriving DecidableEq

/-- The push loop of inventory_thread_proc (star_sync.c:702-755): every unsynced
entry is classified stack/unlock, possibly queued, and then marked `synced = 1`
unconditionally (star_sync.c:753 runs after the if/else in both branches).
Returns the updated items and the queued add_item requests, in order;
`add_item_calls` of the C code equals the length of the queued list. -/
def inventory_push_items (has_item : Str → Bool) (default_src : Str) :
    List LocalItem → List LocalItem × List QueuedAdd
  | [] => ([], [])
  | it :: rest =>
    if it.synced then
      let (r, q) := inventory_push_items has_item default_src rest
      (it :: r, q)
    else
      let qty : Int := if it.quantity > 0 then it.quantity else 1
      let is_stack : Bool := (if qty > 1 then true else false) || endsWithEventSuffix it.name
      let queuedHere : List QueuedAdd :=
        if is_stack then
          let bl : Nat := if endsWithEventSuffix it.name then it.name.length - 7 else it.name.length
          let base_name := it.name.take (min bl 127)
          [{ name := base_name
             description := it.description
             game_source := if it.game_source ≠ [] then it.game_source else default_src
             item_type := if it.item_type ≠ [] then it.item_type else strOf "KeyItem"
             nft_id := if it.nft_id ≠ [] then some it.nft_id else none
             quantity := qty
             stack := qty }]
        else if has_item it.name then []
        else
          [{ name := it.name
             description := it.description
             game_source := if it.game_source ≠ [] then it.game_source else default_src
             item_type := if it.item_type ≠ [] then it.item_type else strOf "KeyItem"
             nft_id := if it.nft_id ≠ [] then some it.nft_id else none
             quantity := 1
             stack := 1 }]
      let (r, q) := inventory_push_items has_item default_src rest
      ({ it with synced := true } :: r, queuedHere ++ q)

/-- Behavior of the remote-service client during one refresh: the `has_item`
answers, the outcome of `star_api_flush_add_item_jobs`, and the outcome of
`star_api_get_inventory` (`fetch_list = none` models a NULL list pointer). -/
structure RemoteEnv where
  has_item : Str → Bool
  flush_add_ok : Bool
  flush_add_err : Option Str
  fetch_result : star_api_result_t
  fetch_list : Option (List star_item)
  fetch_err : Option Str

/-- Result fields stored by inventory_thread_proc under the slot lock
(star_sync.c:776-802). -/
structure InvOutcome where
  result : star_api_result_t
  list : Option (List star_item)
  error_msg : Str
  add_item_calls : Nat
  queued : List QueuedAdd
  deriving DecidableEq

/-- inventory_thread_proc (star_sync.c:670-803): push phase (only when items were
passed and the default source is non-empty), batch flush, fetch, and the
add-item-error override of star_sync.c:790-794. -/
def inventory_thread_proc (env : RemoteEnv) (local_items : List LocalItem)
    (default_src : Str) : List LocalItem × InvOutcome :=
  let (local2, queued) :=
    if local_items ≠ [] ∧ default_src ≠ [] then
      inventory_push_items env.has_item default_src local_items
    else (local_items, [])
  let add_calls := queued.length
  let add_err : Str :=
    if 0 < add_calls ∧ env.flush_add_ok = false then
      str_copy_content
        (match env.flush_add_err with
         | some e => e
         | none => strOf "flush add_item jobs failed") 256
    else []
  let fr :=
    if env.fetch_result ≠ star_api_result_t.success then
      (env.fetch_result,
       some (match env.fetch_err with
             | some e => if e = [] then strOf "Unknown error" else e
             | none => strOf "Unknown error"))
    else if env.fetch_list = none then
      (star_api_result_t.error_api_error,
       some (strOf "Inventory API returned success but no data"))
    else (star_api_result_t.success, (none : Option Str))
  let error_msg1 := str_copy_content (fr.2.getD []) 256
  let final :=
    if add_err ≠ [] then
      ((if fr.1 = star_api_result_t.success then star_api_result_t.error_not_initialized
        else fr.1),
       str_copy_content add_err 256)
    else (fr.1, error_msg1)
  (local2,
   { result := final.1, list := env.fetch_list, error_msg := final.2,
     add_item_calls := add_calls, queued := queued })

/-! ### Reconciliation (oquake_star_integration.c: OQ_ProcessInventoryResult) -/

/-- oquake_inventory_entry_t (oquake_star_integration.c:99-106). -/
structure oquake_inventory_entry where
  name : Str
  description : Str
  item_type : Str
  id : Str
  game_source : Str
  quantity : Int
  deriving DecidableEq

/-- OQ_MAX_INVENTORY_ITEMS (oquake_star_integration.c:94). -/
def OQ_MAX_INVENTORY_ITEMS : Nat := 256

/-- Copy of one snapshot item into the display array
(oquake_star_integration.c:756-763); the quantity is clamped to at least 1. -/
def entryOfItem (it : star_item) : oquake_inventory_entry :=
  { name := it.name, description := it.description, item_type := it.item_type,
    id := it.id, game_source := it.game_source,
    quantity := if it.quantity > 0 then it.quantity else 1 }

/-- Membership test by strcmp, as in the linear scans of the C code. -/
def strMem (n : Str) : List Str → Bool
  | [] => false
  | s :: rest => if s = n then true else strMem n rest

/-- The inner marking loop at oquake_star_integration.c:766-774: set `synced` on
the first ledger entry whose name matches, then break. -/
def markFirstSynced : List LocalItem → Str → List LocalItem
  | [], _ => []
  | e :: rest, n =>
      if e.name = n then { e with synced := true } :: rest
      else e :: markFirstSynced rest n

/-- The snapshot copy loop (oquake_star_integration.c:754-776): while both the
display array and the captured-names array have room, copy the item, record its
name, and mark the first matching ledger entry synced. -/
def inv_snapshot_phase :
    List star_item → List oquake_inventory_entry → List Str → List LocalItem →
    List oquake_inventory_entry × List Str × List LocalItem
  | [], display, names, ledger => (display, names, ledger)
  | it :: rest, display, names, ledger =>
    if display.length < OQ_MAX_INVENTORY_ITEMS ∧ names.length < OQ_MAX_INVENTORY_ITEMS then
      inv_snapshot_phase rest (display ++ [entryOfItem it]) (names ++ [it.name])
        (markFirstSynced ledger it.name)
    else (display, names, ledger)

/-- The merge loop (oquake_star_integration.c:778-797): every not-yet-synced
ledger entry whose name was captured from the snapshot becomes synced. -/
def inv_merge_phase (ledger : List LocalItem) (remote_ok : Bool) (names : List Str) :
    List LocalItem :=
  ledger.map fun e =>
    if e.synced = false ∧ remote_ok = true ∧ strMem e.name names = true then
      { e with synced := true }
    else e

/-- A ledger entry shown as a local-only display record
(oquake_star_integration.c:823-832). -/
def localDisplayEntry (e : LocalItem) : oquake_inventory_entry :=
  { name := e.name, description := e.description, item_type := e.item_type,
    id := [], game_source := strOf "Quake", quantity := 1 }

/-- The append loop (oquake_star_integration.c:799-833): while the display has
room, append each ledger entry that is not already present by name and not a
synced entry confirmed in the captured snapshot. -/
def inv_append_local_phase (remote_ok : Bool) (names : List Str) :
    List LocalItem → List oquake_inventory_entry → List oquake_inventory_entry
  | [], display => display
  | e :: rest, display =>
    if display.length < OQ_MAX_INVENTORY_ITEMS then
      if strMem e.name (display.map fun d => d.name) then
        inv_append_local_phase remote_ok names rest display
      else if e.synced = true ∧ remote_ok = true ∧ strMem e.name names = true then
        inv_append_local_phase remote_ok names rest display
      else
        inv_append_local_phase remote_ok names rest (display ++ [localDisplayEntry e])
    else display

/-- The compaction block (oquake_star_integration.c:835-847): keep the unsynced
entries, in order. -/
def inv_compact_ledger : List LocalItem → List LocalItem
  | [] => []
  | e :: rest =>
      if e.synced then inv_compact_ledger rest else e :: inv_compact_ledger rest

/-- Decimal rendering of a non-negative count (the `%d` of q_snprintf). -/
def natStr (n : Nat) : Str := (Nat.repr n).data

/-- The error-message excerpt used in status lines
(oquake_star_integration.c:854-858): copy into a 128-byte buffer, and if longer
than 80 characters keep 77 and add an ellipsis. -/
def oq_error_excerpt (e : Str) : Str :=
  let msg := e.take 127
  if 80 < msg.length then msg.take 77 ++ strOf "..." else msg

/-- The status summarization of OQ_ProcessInventoryResult
(oquake_star_integration.c:850-881), a pure function of the display count, the
pending count, `remote_ok`, `star_initialized()` and the presence of an API error
message.  Status lines are built by q_snprintf into a 128-byte buffer. -/
def OQ_StatusString (count pending : Nat) (remote_ok star_initialized : Bool)
    (api_error : Option Str) : Str :=
  if count = 0 then
    if remote_ok then strOf "STAR inventory is empty."
    else
      match api_error with
      | some e => (strOf "STAR API error: " ++ oq_error_excerpt e).take 127
      | none => strOf "Inventory is empty."
  else if remote_ok then
    if 0 < pending then
      (strOf "Synced (" ++ natStr count ++ strOf " items), " ++ natStr pending ++
        strOf " pending").take 127
    else (strOf "Synced (" ++ natStr count ++ strOf " items)").take 127
  else if star_initialized then
    match api_error with
    | some e =>
        (strOf "STAR API error: " ++ oq_error_excerpt e ++ strOf " (showing local: " ++
          natStr count ++ strOf " items)").take 127
    | none =>
        (strOf "STAR API unavailable; showing local inventory (" ++ natStr count ++
          strOf " items)").take 127
  else strOf "Offline - use STAR BEAMIN"

/-- Observable outcome of OQ_ProcessInventoryResult: the rebuilt display list, the
ledger as it stands after the merge loops but before compaction (`merged`), the
compacted ledger, the pending count, and the status line. -/
structure InvProcOutput where
  display : List oquake_inventory_entry
  merged : List LocalItem
  ledger : List LocalItem
  pending : Nat
  status : Str
  deriving DecidableEq

/-- OQ_ProcessInventoryResult (oquake_star_integration.c:739-893).  `ledger` is
the local inventory with the synced flags already copied back from the sync
layer (the loop at lines 746-751, an index-aligned copy modeled as identity). -/
def OQ_ProcessInventoryResult (list : Option (List star_item))
    (result : star_api_result_t) (api_error : Option Str)
    (ledger : List LocalItem) (star_initialized : Bool) : InvProcOutput :=
  let remote_ok : Bool :=
    if result = star_api_result_t.success ∧ list.isSome then true else false
  let phase1 :=
    match list with
    | some l =>
        if remote_ok = true ∧ 0 < l.length then inv_snapshot_phase l [] [] ledger
        else ([], [], ledger)
    | none => ([], [], ledger)
  let display0 := phase1.1
  let names := phase1.2.1
  let ledger1 := phase1.2.2
  let ledger2 := inv_merge_phase ledger1 remote_ok names
  let display := inv_append_local_phase remote_ok names ledger2 display0
  let ledger3 := inv_compact_ledger ledger2
  { display := display, merged := ledger2, ledger := ledger3,
    pending := ledger3.length,
    status := OQ_StatusString display.length ledger3.length remote_ok
      star_initialized api_error }

/-- One full inventory refresh: worker thread then the completion handling of
OQ_OnInventoryDone (oquake_star_integration.c:711-733), which passes the list,
the result and a non-empty error message on to OQ_ProcessInventoryResult. -/
def inventory_refresh_job (env : RemoteEnv) (ledger : List LocalItem)
    (default_src : Str) (star_initialized : Bool) : InvProcOutput :=
  let w := inventory_thread_proc env ledger default_src
  OQ_ProcessInventoryResult w.2.list w.2.result
    (if w.2.error_msg = [] then none else some w.2.error_msg) w.1 star_initialized

/-! ### Grouping engine (oquake_star_integration.c:229-372) -/

/-- Needle-starts-here test of the substring scan. -/
def startsWithSeq : List Char → List Char → Bool
  | [], _ => true
  | _ :: _, [] => false
  | a :: ns, b :: hs => if a = b then startsWithSeq ns hs else false

/-- C `strstr(hay, needle) != NULL`: the needle occurs contiguously in the hay. -/
def strstrB (needle : Str) : Str → Bool
  | [] => startsWithSeq needle []
  | c :: rest => startsWithSeq needle (c :: rest) || strstrB needle rest

/-- C `tolower` in the C locale: only ASCII capitals change. -/
def asciiLower (c : Char) : Char :=
  if 'A' ≤ c ∧ c ≤ 'Z' then Char.ofNat (c.toNat + 32) else c

/-- OQ_ContainsNoCase (oquake_star_integration.c:591-609): case-insensitive
substring search; an empty needle never matches. -/
def OQ_ContainsNoCase (hay needle : Str) : Bool :=
  if needle = [] then false
  else strstrB (needle.map asciiLower) (hay.map asciiLower)

/-- Characters after the last `+` of the description (C `strrchr`). -/
def afterLastPlus : Str → Option Str
  | [] => none
  | c :: rest =>
    match afterLastPlus rest with
    | some t => some t
    | none => if c = '+' then some rest else none

/-- C `atoi` on a string starting with a digit: the leading digit run as a
number (values in play are small, so `int` overflow is not modeled). -/
def atoiDigits : Str → Nat → Nat
  | [], acc => acc
  | c :: rest, acc =>
      if isDigitCh c then atoiDigits rest (acc * 10 + (c.toNat - '0'.toNat)) else acc

/-- OQ_ParsePickupDelta (oquake_star_integration.c:250-259): the number after the
last `+` of the description, else 1. -/
def OQ_ParsePickupDelta (description : Str) : Int :=
  match afterLastPlus description with
  | none => 1
  | some t =>
    match t with
    | [] => 1
    | c :: _ => if isDigitCh c then (atoiDigits t 0 : Nat) else 1

/-- OQ_AppendGameSourceTag (oquake_star_integration.c:261-273), with the
q_strlcat cap of the 96-byte label buffer. -/
def OQ_AppendGameSourceTag (gs : Str) (label : Str) : Str :=
  if gs = [] then label
  else if strstrB (strOf "Doom") gs || strstrB (strOf "ODOOM") gs ||
      strstrB (strOf "doom") gs then
    (label ++ strOf " (ODOOM)").take 95
  else if strstrB (strOf "Quake") gs || strstrB (strOf "OQUAKE") gs ||
      strstrB (strOf "quake") gs then
    (label ++ strOf " (OQUAKE)").take 95
  else label

def OQ_GROUP_MODE_COUNT : Nat := 0

def OQ_GROUP_MODE_SUM : Nat := 1

/-- OQ_GetGroupedDisplayInfo (oquake_star_integration.c:275-313): derive
`(label, mode, value)` for one display entry — strip a `_NNNNNN` suffix, pick
SUM mode with a parsed or quantity-based delta for the stackable labels, COUNT
mode with value 1 otherwise, then append the game-source tag. -/
def OQ_GetGroupedDisplayInfo (item : oquake_inventory_entry) : Str × Nat × Int :=
  let name := item.name
  let label0 : Str :=
    if endsWithEventSuffix name then name.take (min (name.length - 7) 95)
    else name.take 95
  let mv : Nat × Int :=
    if label0 = strOf "Shells" ∨ label0 = strOf "Nails" ∨ label0 = strOf "Rockets" ∨
        label0 = strOf "Cells" then
      let parsed := OQ_ParsePickupDelta item.description
      (OQ_GROUP_MODE_SUM,
       if parsed > 0 then parsed else if item.quantity > 0 then item.quantity else 1)
    else if label0 = strOf "Green Armor" ∨ label0 = strOf "Yellow Armor" ∨
        label0 = strOf "Red Armor" ∨ label0 = strOf "Health" then
      (OQ_GROUP_MODE_SUM, if item.quantity > 0 then item.quantity else 1)
    else if label0 = strOf "Silver Key" ∨ label0 = strOf "Gold Key" then
      (OQ_GROUP_MODE_SUM, if item.quantity > 0 then item.quantity else 1)
    else (OQ_GROUP_MODE_COUNT, 1)
  (OQ_AppendGameSourceTag item.game_source label0, mv.1, mv.2)

def OQ_TAB_KEYS : Nat := 0

def OQ_TAB_POWERUPS : Nat := 1

def OQ_TAB_WEAPONS : Nat := 2

def OQ_TAB_AMMO : Nat := 3

def OQ_TAB_ARMOR : Nat := 4

def OQ_TAB_ITEMS : Nat := 5

/-- OQ_ItemMatchesTab (oquake_star_integration.c:611-629). -/
def OQ_ItemMatchesTab (item : oquake_inventory_entry) (tab : Nat) : Bool :=
  let ty := item.item_type
  let name := item.name
  let is_key := OQ_ContainsNoCase ty (strOf "key") || strstrB (strOf "Key") name ||
    strstrB (strOf "key") name
  let is_powerup := OQ_ContainsNoCase ty (strOf "powerup") ||
    strstrB (strOf "Megahealth") name || strstrB (strOf "Ring") name ||
    strstrB (strOf "Pentagram") name || strstrB (strOf "Biosuit") name ||
    strstrB (strOf "Quad") name
  let is_weapon := OQ_ContainsNoCase ty (strOf "weapon") ||
    strstrB (strOf "Shotgun") name || strstrB (strOf "Nailgun") name ||
    strstrB (strOf "Launcher") name || strstrB (strOf "Lightning") name
  let is_ammo := OQ_ContainsNoCase ty (strOf "ammo") ||
    strstrB (strOf "Shells") name || strstrB (strOf "Nails") name ||
    strstrB (strOf "Rockets") name || strstrB (strOf "Cells") name
  let is_armor := OQ_ContainsNoCase ty (strOf "armor") ||
    strstrB (strOf "Armor") name || strstrB (strOf "armor") name
  if tab = OQ_TAB_KEYS then is_key
  else if tab = OQ_TAB_POWERUPS then is_powerup
  else if tab = OQ_TAB_WEAPONS then is_weapon
  else if tab = OQ_TAB_AMMO then is_ammo
  else if tab = OQ_TAB_ARMOR then is_armor
  else !is_key && !is_powerup && !is_weapon && !is_ammo && !is_armor

/-- One grouped UI row: the parallel output arrays of OQ_BuildGroupedRows plus
its local `row_api_sum` / `row_local_sum` accumulators. -/
structure GRow where
  rep : Nat
  mode : Nat
  label : Str
  value : Int
  api_sum : Int
  local_sum : Int
  has_pending : Bool
  deriving DecidableEq

/-- The find-row scan of OQ_BuildGroupedRows (oquake_star_integration.c:338-341). -/
def rowsHasKey (mode : Nat) (label : Str) : List GRow → Bool
  | [] => false
  | r :: rest => if r.mode = mode ∧ r.label = label then true else rowsHasKey mode label rest

/-- The pending scan (oquake_star_integration.c:360-368): is there an unsynced
ledger entry with this exact item name? -/
def ledgerHasPendingName (ledger : List LocalItem) (n : Str) : Bool :=
  match ledger with
  | [] => false
  | e :: rest =>
      if e.name = n ∧ e.synced = false then true else ledgerHasPendingName rest n

/-- The value stored in a row with accumulated sums `a` (API side) and `b` (local
side): the larger sum, clamped to at least 1 (oquake_star_integration.c:357-359). -/
def rowValue (a b : Int) : Int :=
  let v := if a > b then a else b
  if v < 1 then 1 else v

/-- The accumulation step (oquake_star_integration.c:352-368) applied to the
first row matching `(mode, label)`: add the contribution to the API-side or
local-side sum, set the value to the larger sum clamped to at least 1, and
accumulate the pending flag. -/
def bumpFirstRow (mode : Nat) (label : Str) (contrib : Int) (isApi : Bool)
    (pend : Bool) : List GRow → List GRow
  | [] => []
  | r :: rest =>
    if r.mode = mode ∧ r.label = label then
      let api2 := if isApi then r.api_sum + contrib else r.api_sum
      let local2 := if isApi then r.local_sum else r.local_sum + contrib
      { r with
        api_sum := api2
        local_sum := local2
        value := rowValue api2 local2
        has_pending := r.has_pending || pend } :: rest
    else r :: bumpFirstRow mode label contrib isApi pend rest

/-- A freshly created row (oquake_star_integration.c:342-351) before its first
contribution is applied. -/
def freshRow (idx : Nat) (mode : Nat) (label : Str) : GRow :=
  { rep := idx, mode := mode, label := label, value := 0, api_sum := 0,
    local_sum := 0, has_pending := false }

/-- The main loop of OQ_BuildGroupedRows (oquake_star_integration.c:330-369):
find-or-create the row keyed by `(mode, label)` and apply the contribution; when
a new row would exceed `max_rows`, the C `break` stops the whole loop. -/
def buildRowsGo (ledger : List LocalItem) (max_rows : Nat) :
    List (Nat × oquake_inventory_entry) → List GRow → List GRow
  | [], rows => rows
  | (idx, ent) :: rest, rows =>
    let info := OQ_GetGroupedDisplayInfo ent
    let isApi : Bool := decide (ent.id ≠ [])
    let pend := ledgerHasPendingName ledger ent.name
    if rowsHasKey info.2.1 info.1 rows then
      buildRowsGo ledger max_rows rest (bumpFirstRow info.2.1 info.1 info.2.2 isApi pend rows)
    else if max_rows ≤ rows.length then rows
    else
      buildRowsGo ledger max_rows rest
        (bumpFirstRow info.2.1 info.1 info.2.2 isApi pend
          (rows ++ [freshRow idx info.2.1 info.1]))

/-- OQ_BuildFilteredIndices (oquake_star_integration.c:229-241) as the list of
(index, entry) pairs matching the tab.  (The C out-array holds 256 indices; the
display list never exceeds 256 entries, so it is never truncated.) -/
def OQ_BuildFilteredIndices (display : List oquake_inventory_entry) (tab : Nat) :
    List (Nat × oquake_inventory_entry) :=
  display.enum.filter fun p => OQ_ItemMatchesTab p.2 tab

/-- OQ_BuildGroupedRows (oquake_star_integration.c:315-372). -/
def OQ_BuildGroupedRows (display : List oquake_inventory_entry)
    (ledger : List LocalItem) (tab : Nat) (max_rows : Nat) : List GRow :=
  buildRowsGo ledger max_rows (OQ_BuildFilteredIndices display tab) []

/-! ### Helper lemmas on string copies -/

theorem str_copy_content_eq_take (l : Str) (n : Nat) :
    str_copy_content l n = l.take (n - 1) := copyLoop_eq_take l n

theorem str_copy_content_idem (l : Str) (n : Nat) :
    str_copy_content (str_copy_content l n) n = str_copy_content l n := by
  simp [str_copy_content_eq_take, List.take_take]

/-! ### Claims about str_copy and the job slots -/

/-- C9: for every destination size `s > 0` and every source (including NULL),
`str_copy` writes at most `s` bytes, leaves the destination NUL-terminated, and
stores the longest source prefix of length at most `s - 1` (the empty string for a
NULL source); for `s = 0` it writes nothing at all. -/
theorem C9_str_copy_truncates_and_terminates (src : Option Str) (size : Nat)
    (h : 0 < size) :
    str_copy src size = some ((src.getD []).take (size - 1)) ∧
    ((src.getD []).take (size - 1)).length + 1 ≤ size ∧
    (src = none → str_copy src size = some []) ∧
    str_copy src 0 = none := by
  have hz : size ≠ 0 := Nat.pos_iff_ne_zero.mp h
  refine ⟨?_, ?_, ?_, ?_⟩
  · simp [str_copy, hz, copyLoop_eq_take]
  · have := List.length_take (size - 1) (src.getD [])
    have : ((src.getD []).take (size - 1)).length ≤ size - 1 := by
      simp [List.length_take]
    omega
  · intro hsrc; subst hsrc; simp [str_copy, hz, copyLoop_eq_take]
  · simp [str_copy]

theorem C9_str_copy_truncates_and_terminates_witness :
    str_copy (some (strOf "abcdef")) 4 = some ((strOf "abcdef").take 3) :=
  (C9_str_copy_truncates_and_terminates (some (strOf "abcdef")) 4 (by decide)).1

/-- C1: for every job slot (auth, inventory-refresh, send-item, use-item), a call
to its start operation while `in_progress` is true returns immediately with the
slot state unchanged and no worker spawned; consequently two back-to-back start
calls from an idle slot spawn exactly one worker, the second call is a no-op, and
only the first call's (truncated) arguments are in the slot buffers, so only the
first credential set is passed by the worker to `star_api_authenticate`. -/
theorem C1_job_start_rejects_when_busy :
    (∀ (s : AuthSlot) u p cb ud, s.in_progress = true →
       star_sync_auth_start s u p cb ud = (s, false)) ∧
    (∀ (s : InvSlot) li gs cb ud, s.in_progress = true →
       star_sync_inventory_start s li gs cb ud = (s, false)) ∧
    (∀ (s : SendSlot) t n q c i cb ud, s.in_progress = true →
       star_sync_send_item_start s t n q c i cb ud = (s, false)) ∧
    (∀ (s : UseSlot) n c cb ud, s.in_progress = true →
       star_sync_use_item_start s n c cb ud = (s, false)) ∧
    (∀ (s : AuthSlot) u1 p1 cb1 ud1 u2 p2 cb2 ud2, s.in_progress = false →
       (star_sync_auth_start s u1 p1 cb1 ud1).2 = true ∧
       star_sync_auth_start (star_sync_auth_start s u1 p1 cb1 ud1).1 u2 p2 cb2 ud2 =
         ((star_sync_auth_start s u1 p1 cb1 ud1).1, false) ∧
       auth_thread_input (star_sync_auth_start s u1 p1 cb1 ud1).1 =
         (str_copy_content (u1.getD []) 64, str_copy_content (p1.getD []) 64)) := by
  refine ⟨?_, ?_, ?_, ?_, ?_⟩
  · intro s u p cb ud h; simp [star_sync_auth_start, h]
  · intro s li gs cb ud h; simp [star_sync_inventory_start, h]
  · intro s t n q c i cb ud h; simp [star_sync_send_item_start, h]
  · intro s n c cb ud h; simp [star_sync_use_item_start, h]
  · intro s u1 p1 cb1 ud1 u2 p2 cb2 ud2 h
    refine ⟨by simp [star_sync_auth_start, h], ?_, ?_⟩
    · simp [star_sync_auth_start, h]
    · simp [star_sync_auth_start, h, auth_thread_input, str_copy_content_idem]

/-- Zero-initialized auth slot, as at program start. -/
def authSlot0 : AuthSlot :=
  { username_buf := [], password_buf := [], in_progress := false,
    has_result := false, success := false, username_out := [],
    avatar_id_out := [], error_msg := [], on_done := none, on_done_user := 0 }

/-- An auth slot with a worker running. -/
def authSlotBusy : AuthSlot := { authSlot0 with in_progress := true }

theorem C1_job_start_rejects_when_busy_witness :
    star_sync_auth_start authSlotBusy (some (strOf "u")) (some (strOf "p")) none 0 =
      (authSlotBusy, false) ∧
    auth_thread_input
        (star_sync_auth_start authSlot0 (some (strOf "first")) (some (strOf "pw1"))
          none 0).1 =
      (str_copy_content (strOf "first") 64, str_copy_content (strOf "pw1") 64) :=
  ⟨C1_job_start_rejects_when_busy.1 authSlotBusy (some (strOf "u"))
      (some (strOf "p")) none 0 (by decide),
   (C1_job_start_rejects_when_busy.2.2.2.2 authSlot0 (some (strOf "first"))
      (some (strOf "pw1")) none 0 (some (strOf "second")) (some (strOf "pw2")) none 0
      (by decide)).2.2⟩

/-- C10: a successful `star_sync_send_item_start` causes the worker to pass
quantity `max 1 quantity` to the remote send call, and an empty or NULL `item_id`
argument is forwarded to the remote call as NULL (a non-empty one is forwarded,
truncated to the 63 characters that fit its slot buffer). -/
theorem C10_send_item_quantity_clamped (s : SendSlot) (h : s.in_progress = false)
    (target item_name : Option Str) (q : Int) (clan : Bool) (iid : Option Str)
    (cb : Option Nat) (ud : Nat) :
    (send_item_thread_call
        (star_sync_send_item_start s target item_name q clan iid cb ud).1).quantity =
      max 1 q ∧
    (send_item_thread_call
        (star_sync_send_item_start s target item_name q clan iid cb ud).1).item_id =
      (match iid with
       | none => none
       | some l => if l = [] then none else some (l.take 63)) := by
  constructor
  · rcases lt_or_le q 1 with hq | hq
    · simp [star_sync_send_item_start, h, send_item_thread_call, hq,
        max_eq_left (le_of_lt hq)]
    · have hq2 : ¬(q < 1) := not_lt.mpr hq
      simp [star_sync_send_item_start, h, send_item_thread_call, hq2,
        max_eq_right hq]
  · match iid with
    | none => simp [star_sync_send_item_start, h, send_item_thread_call,
        str_copy_content, copyLoop]
    | some l =>
      by_cases hl : l = []
      · subst hl
        simp [star_sync_send_item_start, h, send_item_thread_call,
          str_copy_content, copyLoop]
      · have ht : l.take 63 ≠ [] := by
          intro hc
          rcases List.take_eq_nil_iff.mp hc with h63 | hnil
          · exact absurd h63 (by decide)
          · exact hl hnil
        simp [star_sync_send_item_start, h, send_item_thread_call, hl,
          str_copy_content_eq_take, List.take_take, ht]

/-- Zero-initialized send slot (quantity starts at 1 in star_sync.c:262). -/
def sendSlot0 : SendSlot :=
  { target_buf := [], item_name_buf := [], item_id_buf := [], quantity := 1,
    to_clan := false, in_progress := false, has_result := false, success := false,
    error_msg := [], on_done := none, on_done_user := 0 }

theorem C10_send_item_quantity_clamped_witness :
    (send_item_thread_call
        (star_sync_send_item_start sendSlot0 (some (strOf "bob"))
          (some (strOf "Shells")) (-3) false (some []) none 0).1).quantity =
      max 1 (-3) ∧
    (send_item_thread_call
        (star_sync_send_item_start sendSlot0 (some (strOf "bob"))
          (some (strOf "Shells")) (-3) false (some []) none 0).1).item_id = none := by
  have h := C10_send_item_quantity_clamped sendSlot0 (by decide) (some (strOf "bob"))
    (some (strOf "Shells")) (-3) false (some []) none 0
  exact ⟨h.1, by simpa using h.2⟩

/-- C8: in every reachable state of the job-slot machine, the pump dispatches a
registered callback only when a result is stored, and a stored result implies the
worker's completing critical section — which clears `in_progress` and sets
`has_result` under the slot lock — has already run; hence a callback is never
invoked while `in_progress` is true. -/
theorem C8_callback_only_after_worker_done {s s' : SlotMState}
    (hr : SlotReachable s) (hs : SlotStep s SlotEvent.pumpInvoke s') :
    s.in_progress = false ∧ s.has_result = true := by
  cases hs with
  | pumpInvoke h1 h2 => exact ⟨slotInv_of_reachable hr h1, h1⟩

/-- Slot state after a successful start: worker running. -/
def slotS1 : SlotMState :=
  { in_progress := true, has_result := false, cb_registered := true,
    worker_alive := true }

/-- Slot state after the worker's completing critical section. -/
def slotS2 : SlotMState :=
  { in_progress := false, has_result := true, cb_registered := true,
    worker_alive := false }

theorem C8_callback_only_after_worker_done_witness :
    slotS2.in_progress = false ∧ slotS2.has_result = true :=
  C8_callback_only_after_worker_done
    (SlotReachable.step
      (SlotReachable.step SlotReachable.init (SlotStep.startOk slotInit true rfl))
      (SlotStep.workerComplete slotS1 rfl))
    (SlotStep.pumpInvoke slotS2 rfl rfl)

/-! ### Claims about the status summarization (C5) -/

/-- C5 counterexample: with no items, a failed fetch, no error message and
`star_initialized()` false (not authenticated), the code reports the empty-inventory
status, not the offline status — so the not-authenticated case does not have top
priority as the claim states. -/
theorem C5_counterexample_empty_beats_offline :
    OQ_StatusString 0 0 false false none = strOf "Inventory is empty." ∧
    OQ_StatusString 0 0 false false none ≠ strOf "Offline - use STAR BEAMIN" := by
  constructor
  · rfl
  · decide

/-- C5 (amended): the status string is a pure function of (display count, pending
count, fetch success, authenticated?, error-message presence) with the fixed
priority of oquake_star_integration.c:850-881: an empty display list is handled
first (fetch succeeded → empty status; fetch failed with an error → error-empty
status; otherwise plain empty status); then a successful fetch (pending > 0 →
synced-with-N-pending, else synced); then fetch failed while authenticated →
error-showing-cached statuses; and only last (fetch failed, items shown, not
authenticated) the offline status. -/
theorem C5_status_priority (count pending : Nat) (remote_ok init : Bool)
    (err : Option Str) :
    (count = 0 → remote_ok = true →
      OQ_StatusString count pending remote_ok init err =
        strOf "STAR inventory is empty.") ∧
    (∀ e, count = 0 → remote_ok = false → err = some e →
      OQ_StatusString count pending remote_ok init err =
        (strOf "STAR API error: " ++ oq_error_excerpt e).take 127) ∧
    (count = 0 → remote_ok = false → err = none →
      OQ_StatusString count pending remote_ok init err =
        strOf "Inventory is empty.") ∧
    (0 < count → remote_ok = true → 0 < pending →
      OQ_StatusString count pending remote_ok init err =
        (strOf "Synced (" ++ natStr count ++ strOf " items), " ++ natStr pending ++
          strOf " pending").take 127) ∧
    (0 < count → remote_ok = true → pending = 0 →
      OQ_StatusString count pending remote_ok init err =
        (strOf "Synced (" ++ natStr count ++ strOf " items)").take 127) ∧
    (∀ e, 0 < count → remote_ok = false → init = true → err = some e →
      OQ_StatusString count pending remote_ok init err =
        (strOf "STAR API error: " ++ oq_error_excerpt e ++ strOf " (showing local: " ++
          natStr count ++ strOf " items)").take 127) ∧
    (0 < count → remote_ok = false → init = true → err = none →
      OQ_StatusString count pending remote_ok init err =
        (strOf "STAR API unavailable; showing local inventory (" ++ natStr count ++
          strOf " items)").take 127) ∧
    (0 < count → remote_ok = false → init = false →
      OQ_StatusString count pending remote_ok init err =
        strOf "Offline - use STAR BEAMIN") := by
  refine ⟨?_, ?_, ?_, ?_, ?_, ?_, ?_, ?_⟩
  · intro hc hr; subst hc; subst hr; simp [OQ_StatusString]
  · intro e hc hr he; subst hc; subst hr; subst he; simp [OQ_StatusString]
  · intro hc hr he; subst hc; subst hr; subst he; simp [OQ_StatusString]
  · intro hc hr hp; subst hr
    have hc2 : count ≠ 0 := Nat.pos_iff_ne_zero.mp hc
    simp [OQ_StatusString, hc2, hp]
  · intro hc hr hp; subst hr; subst hp
    have hc2 : count ≠ 0 := Nat.pos_iff_ne_zero.mp hc
    simp [OQ_StatusString, hc2]
  · intro e hc hr hi he; subst hr; subst hi; subst he
    have hc2 : count ≠ 0 := Nat.pos_iff_ne_zero.mp hc
    simp [OQ_StatusString, hc2]
  · intro hc hr hi he; subst hr; subst hi; subst he
    have hc2 : count ≠ 0 := Nat.pos_iff_ne_zero.mp hc
    simp [OQ_StatusString, hc2]
  · intro hc hr hi; subst hr; subst hi
    have hc2 : count ≠ 0 := Nat.pos_iff_ne_zero.mp hc
    simp [OQ_StatusString, hc2]

theorem C5_status_priority_witness :
    OQ_StatusString 1 0 false false none = strOf "Offline - use STAR BEAMIN" :=
  (C5_status_priority 1 0 false false none).2.2.2.2.2.2.2 (by decide) rfl rfl

/-! ### Claims about the push phase and Scenario A (C2, C7) -/

/-- The pending "Shells" ledger entry of Scenario A (one unsynced pickup). -/
def shellsPending : LocalItem :=
  { name := strOf "Shells", description := [], game_source := strOf "Quake",
    item_type := strOf "Ammo", nft_id := [], quantity := 1, synced := false }

/-- A remote in which the item is absent, the add-item flush FAILS, and the
fetch succeeds returning an empty snapshot. -/
def envFlushFail : RemoteEnv :=
  { has_item := fun _ => false, flush_add_ok := false, flush_add_err := none,
    fetch_result := star_api_result_t.success, fetch_list := some [],
    fetch_err := none }

/-- C2, evaluated at the failing input: one unsynced "Shells" entry is pushed,
the add_item flush fails, yet the worker has already marked the entry synced
(star_sync.c:753 runs before the flush outcome is known), so the next
reconciliation's compaction removes it from the ledger — the entry does not
remain unsynced as the claim requires. -/
theorem C2_failed_push_entry_still_removed :
    (inventory_thread_proc envFlushFail [shellsPending] (strOf "Quake")).1.map
        LocalItem.synced = [true] ∧
    (inventory_thread_proc envFlushFail [shellsPending] (strOf "Quake")).2.add_item_calls
        = 1 ∧
    (inventory_thread_proc envFlushFail [shellsPending]
        (strOf "Quake")).2.result ≠ star_api_result_t.success ∧
    (inventory_refresh_job envFlushFail [shellsPending] (strOf "Quake") true).ledger
        = [] ∧
    (inventory_refresh_job envFlushFail [shellsPending] (strOf "Quake") true).pending
        = 0 := by
  refine ⟨by decide, by decide, by decide, by decide, by decide⟩

/-- Scenario A's remote: item absent, flush succeeds, fetch returns `[]`. -/
def envScenarioA : RemoteEnv :=
  { has_item := fun _ => false, flush_add_ok := true, flush_add_err := none,
    fetch_result := star_api_result_t.success, fetch_list := some [],
    fetch_err := none }

/-- C7, evaluated at Scenario A: ledger = [{"Shells", synced:false}], fetch
succeeds returning `[]`.  The display list is the single local-only "Shells"
entry as claimed, but because the push phase marked the entry synced, the
pending count is 0 (not 1) and the status is "Synced (1 items)" (not a
synced-with-1-pending status). -/
theorem C7_scenario_A_behavior :
    (inventory_refresh_job envScenarioA [shellsPending] (strOf "Quake") true).display.map
        (fun e => e.name) = [strOf "Shells"] ∧
    (inventory_refresh_job envScenarioA [shellsPending] (strOf "Quake") true).display.map
        (fun e => e.id) = [[]] ∧
    (inventory_refresh_job envScenarioA [shellsPending] (strOf "Quake") true).pending
        = 0 ∧
    (inventory_refresh_job envScenarioA [shellsPending] (strOf "Quake") true).status
        = strOf "Synced (1 items)" := by
  refine ⟨by decide, by decide, by decide, by decide⟩

/-! ### Reconciliation lemmas (C3, C4) -/

theorem strMem_eq_true_iff (n : Str) (ss : List Str) : strMem n ss = true ↔ n ∈ ss := by
  induction ss with
  | nil => simp [strMem]
  | cons s rest ih =>
      by_cases h : s = n
      · simp [strMem, h]
      · simp only [strMem, if_neg h, ih, List.mem_cons]
        constructor
        · exact fun hm => Or.inr hm
        · rintro (heq | hm)
          · exact absurd heq.symm h
          · exact hm

theorem inv_compact_eq_filter (L : List LocalItem) :
    inv_compact_ledger L = L.filter (fun e => !e.synced) := by
  induction L with
  | nil => rfl
  | cons e rest ih => cases h : e.synced <;> simp [inv_compact_ledger, h, ih]

theorem inv_merge_phase_false (L : List LocalItem) (ns : List Str) :
    inv_merge_phase L false ns = L := by
  induction L with
  | nil => rfl
  | cons e rest ih =>
      simp only [inv_merge_phase, List.map] at ih ⊢
      simp [ih]

theorem inv_snapshot_phase_spec (l : List star_item) :
    ∀ (k : Nat) (display : List oquake_inventory_entry) (names : List Str)
      (ledger : List LocalItem), display.length = names.length →
      OQ_MAX_INVENTORY_ITEMS - display.length = k →
      inv_snapshot_phase l display names ledger =
        (display ++ (l.take k).map entryOfItem,
         names ++ (l.take k).map star_item.name,
         (l.take k).foldl (fun L it => markFirstSynced L it.name) ledger) := by
  induction l with
  | nil => intro k d ns lg h hk; simp [inv_snapshot_phase]
  | cons it rest ih =>
      intro k d ns lg h hk
      by_cases hlt : d.length < OQ_MAX_INVENTORY_ITEMS
      · have hcond : d.length < OQ_MAX_INVENTORY_ITEMS ∧
            ns.length < OQ_MAX_INVENTORY_ITEMS := ⟨hlt, h ▸ hlt⟩
        obtain ⟨k2, rfl⟩ : ∃ k2, k = k2 + 1 :=
          ⟨OQ_MAX_INVENTORY_ITEMS - (d.length + 1), by omega⟩
        have hrec := ih k2 (d ++ [entryOfItem it]) (ns ++ [it.name])
          (markFirstSynced lg it.name) (by simp [h]) (by simp; omega)
        simp only [inv_snapshot_phase, if_pos hcond, hrec, List.take_succ_cons]
        simp [List.append_assoc]
      · have hcond : ¬(d.length < OQ_MAX_INVENTORY_ITEMS ∧
            ns.length < OQ_MAX_INVENTORY_ITEMS) := fun hc => hlt hc.1
        obtain rfl : k = 0 := by omega
        simp [inv_snapshot_phase, if_neg hcond]

theorem merged_synced_of_name_found (L : List LocalItem) (ns : List Str) :
    ∀ e ∈ inv_merge_phase L true ns, e.name ∈ ns → e.synced = true := by
  intro e2 he2 hn
  rcases List.mem_map.mp he2 with ⟨e, heL, heq⟩
  by_cases hcond : e.synced = false ∧ (true : Bool) = true ∧ strMem e.name ns = true
  · rw [if_pos hcond] at heq
    subst heq
    rfl
  · rw [if_neg hcond] at heq
    subst heq
    have hs : strMem e.name ns = true := (strMem_eq_true_iff _ _).mpr hn
    by_cases hsy : e.synced = false
    · exact absurd ⟨hsy, rfl, hs⟩ hcond
    · simpa using hsy

theorem Process_success_merged (l : List star_item) (err : Option Str)
    (ledger : List LocalItem) (init : Bool) :
    (OQ_ProcessInventoryResult (some l) star_api_result_t.success err ledger init).merged =
      inv_merge_phase
        ((l.take OQ_MAX_INVENTORY_ITEMS).foldl
          (fun L it => markFirstSynced L it.name) ledger)
        true ((l.take OQ_MAX_INVENTORY_ITEMS).map star_item.name) := by
  by_cases hl : l = []
  · subst hl
    simp [OQ_ProcessInventoryResult]
  · have h0 : 0 < l.length := List.length_pos.mpr hl
    have hs := inv_snapshot_phase_spec l OQ_MAX_INVENTORY_ITEMS [] [] ledger rfl rfl
    simp [OQ_ProcessInventoryResult, h0, hs]

theorem Process_success_display (l : List star_item) (err : Option Str)
    (ledger : List LocalItem) (init : Bool) :
    (OQ_ProcessInventoryResult (some l) star_api_result_t.success err ledger init).display =
      inv_append_local_phase true ((l.take OQ_MAX_INVENTORY_ITEMS).map star_item.name)
        ((OQ_ProcessInventoryResult (some l) star_api_result_t.success err ledger
            init).merged)
        ((l.take OQ_MAX_INVENTORY_ITEMS).map entryOfItem) := by
  by_cases hl : l = []
  · subst hl
    simp [OQ_ProcessInventoryResult, inv_merge_phase_false]
  · have h0 : 0 < l.length := List.length_pos.mpr hl
    have hs := inv_snapshot_phase_spec l OQ_MAX_INVENTORY_ITEMS [] [] ledger rfl rfl
    simp [OQ_ProcessInventoryResult, h0, hs]

theorem Process_ledger_eq_filter_merged (list2 : Option (List star_item))
    (result : star_api_result_t) (err : Option Str) (ledger : List LocalItem)
    (init : Bool) :
    (OQ_ProcessInventoryResult list2 result err ledger init).ledger =
      ((OQ_ProcessInventoryResult list2 result err ledger init).merged).filter
        (fun e => !e.synced) := by
  simp [OQ_ProcessInventoryResult, inv_compact_eq_filter]

theorem Process_display_failed (l : List star_item) (result : star_api_result_t)
    (hres : result ≠ star_api_result_t.success) (err : Option Str)
    (ledger : List LocalItem) (init : Bool) :
    (OQ_ProcessInventoryResult (some l) result err ledger init).display =
      inv_append_local_phase false [] ledger [] ∧
    (OQ_ProcessInventoryResult (some l) result err ledger init).merged = ledger := by
  constructor <;> simp [OQ_ProcessInventoryResult, hres, inv_merge_phase_false]

theorem Process_display_none (result : star_api_result_t) (err : Option Str)
    (ledger : List LocalItem) (init : Bool) :
    (OQ_ProcessInventoryResult none result err ledger init).display =
      inv_append_local_phase false [] ledger [] ∧
    (OQ_ProcessInventoryResult none result err ledger init).merged = ledger := by
  constructor <;> simp [OQ_ProcessInventoryResult, inv_merge_phase_false]

/-- A snapshot item named "X". -/
def xRemoteItem : star_item :=
  { id := strOf "i", name := strOf "X", description := [], game_source := [],
    item_type := [], nft_id := [], quantity := 1 }

/-- A snapshot item named "S". -/
def sRemoteItem : star_item := { xRemoteItem with name := strOf "S" }

/-- An unsynced ledger entry named "S". -/
def sPendingEntry : LocalItem :=
  { name := strOf "S", description := [], game_source := strOf "Quake",
    item_type := [], nft_id := [], quantity := 1, synced := false }

/-- A successfully fetched snapshot of 257 items whose last item is named "S". -/
def bigSnapshot : List star_item := List.replicate 256 xRemoteItem ++ [sRemoteItem]

/-- C3 (amended): for every pending ledger and every successfully fetched snapshot
of at most OQ_MAX_INVENTORY_ITEMS (256) items, after one reconciliation pass every
ledger entry whose name equals (exact, case-sensitive strcmp) the name of some
snapshot item is synced, and the compaction step keeps exactly the unsynced
entries in their relative order (it is the stable filter by `!synced`). -/
theorem C3_merge_marks_and_compaction_filters (l : List star_item)
    (ledger : List LocalItem) (api_error : Option Str) (init : Bool)
    (hlen : l.length ≤ OQ_MAX_INVENTORY_ITEMS) :
    (∀ e ∈ (OQ_ProcessInventoryResult (some l) star_api_result_t.success api_error
        ledger init).merged,
      e.name ∈ l.map star_item.name → e.synced = true) ∧
    (OQ_ProcessInventoryResult (some l) star_api_result_t.success api_error ledger
        init).ledger =
      ((OQ_ProcessInventoryResult (some l) star_api_result_t.success api_error ledger
        init).merged).filter (fun e => !e.synced) := by
  constructor
  · intro e he hn
    rw [Process_success_merged, List.take_of_length_le hlen] at he
    exact merged_synced_of_name_found _ _ e he hn
  · exact Process_ledger_eq_filter_merged _ _ _ _ _

theorem C3_merge_marks_and_compaction_filters_witness :
    (∀ e ∈ (OQ_ProcessInventoryResult (some [sRemoteItem]) star_api_result_t.success
        none [sPendingEntry] true).merged,
      e.name ∈ [sRemoteItem].map star_item.name → e.synced = true) ∧
    (OQ_ProcessInventoryResult (some [sRemoteItem]) star_api_result_t.success none
        [sPendingEntry] true).ledger =
      ((OQ_ProcessInventoryResult (some [sRemoteItem]) star_api_result_t.success none
        [sPendingEntry] true).merged).filter (fun e => !e.synced) :=
  C3_merge_marks_and_compaction_filters [sRemoteItem] [sPendingEntry] none true
    (by decide)

/-- C3 counterexample: a successfully fetched snapshot of 257 items whose last
item is named "S".  The snapshot copy loop stops at 256 items, so the ledger
entry named "S" — whose name equals the name of a snapshot item — is still
unsynced after the reconciliation pass, and it survives compaction. -/
theorem C3_counterexample_overflowing_snapshot :
    (strOf "S") ∈ bigSnapshot.map star_item.name ∧
    (OQ_ProcessInventoryResult (some bigSnapshot) star_api_result_t.success none
        [sPendingEntry] true).merged.map LocalItem.synced = [false] ∧
    (OQ_ProcessInventoryResult (some bigSnapshot) star_api_result_t.success none
        [sPendingEntry] true).ledger.map LocalItem.name = [strOf "S"] := by
  refine ⟨by decide, by decide, by decide⟩

/-- C4 counterexample: a successfully fetched snapshot containing two items with
the same name "S" produces a display list with two entries named "S". -/
theorem C4_counterexample_duplicate_snapshot :
    (OQ_ProcessInventoryResult (some [sRemoteItem, sRemoteItem])
        star_api_result_t.success none [] true).display.map (fun e => e.name) =
      [strOf "S", strOf "S"] ∧
    ¬ ((OQ_ProcessInventoryResult (some [sRemoteItem, sRemoteItem])
        star_api_result_t.success none [] true).display.map
          (fun e => e.name)).Nodup := by
  refine ⟨by decide, by decide⟩

theorem count_eq_one_of_nodup_mem {a : Str} {l : List Str} (d : l.Nodup)
    (h : a ∈ l) : l.count a = 1 := by
  induction l with
  | nil => simp at h
  | cons b t ih =>
      rcases List.mem_cons.mp h with rfl | hmem
      · rw [List.count_cons_self, List.count_eq_zero.mpr (List.nodup_cons.mp d).1]
      · have hne2 : b ≠ a := by rintro rfl; exact (List.nodup_cons.mp d).1 hmem
        have ht := ih (List.nodup_cons.mp d).2 hmem
        simp [List.count_cons, beq_iff_eq, hne2, ht]

theorem inv_append_local_phase_nodup (rok : Bool) (ns : List Str) :
    ∀ (ledger : List LocalItem) (display : List oquake_inventory_entry),
      (display.map (fun e => e.name)).Nodup →
      ((inv_append_local_phase rok ns ledger display).map (fun e => e.name)).Nodup := by
  intro ledger
  induction ledger with
  | nil => intro d h; simpa [inv_append_local_phase] using h
  | cons e rest ih =>
      intro d h
      rw [inv_append_local_phase]
      split_ifs with hroom hmem hsync
      · exact ih d h
      · exact ih d h
      · apply ih
        have hnotin : e.name ∉ d.map (fun x => x.name) := fun hm =>
          hmem ((strMem_eq_true_iff _ _).mpr hm)
        simp [List.nodup_append, h, localDisplayEntry, hnotin]
      · exact h

theorem inv_append_local_phase_count (rok : Bool) (ns : List Str) :
    ∀ (ledger : List LocalItem) (display : List oquake_inventory_entry) (nm : Str),
      nm ∈ display.map (fun e => e.name) →
      ((inv_append_local_phase rok ns ledger display).map (fun e => e.name)).count nm =
        (display.map (fun e => e.name)).count nm := by
  intro ledger
  induction ledger with
  | nil => intro d nm hm; simp [inv_append_local_phase]
  | cons e rest ih =>
      intro d nm hm
      rw [inv_append_local_phase]
      split_ifs with hroom hmem hsync
      · exact ih d nm hm
      · exact ih d nm hm
      · have hnotin : e.name ∉ d.map (fun x => x.name) := fun hmm =>
          hmem ((strMem_eq_true_iff _ _).mpr hmm)
        have hne : e.name ≠ nm := fun hc => hnotin (hc ▸ hm)
        have hm2 : nm ∈ (d ++ [localDisplayEntry e]).map (fun x => x.name) := by
          simp only [List.map_append, List.mem_append]
          exact Or.inl hm
        rw [ih (d ++ [localDisplayEntry e]) nm hm2]
        simp [localDisplayEntry, List.count_append, List.count_cons, beq_iff_eq, hne]
      · rfl

/-- C4 (amended): provided the fetched snapshot itself has pairwise-distinct item
names, the display list produced by reconciliation never contains two entries with
the same name (for any result code, ledger and error), and — when the snapshot
fits the 256-entry display capacity — an item name present in the snapshot appears
exactly once in the display list, also when the same name is an unsynced ledger
entry. -/
theorem C4_display_names_unique (list2 : Option (List star_item))
    (result : star_api_result_t) (err : Option Str) (ledger : List LocalItem)
    (init : Bool)
    (hnodup : ∀ l, list2 = some l → (l.map star_item.name).Nodup) :
    ((OQ_ProcessInventoryResult list2 result err ledger init).display.map
        (fun e => e.name)).Nodup ∧
    (∀ l, list2 = some l → result = star_api_result_t.success →
      l.length ≤ OQ_MAX_INVENTORY_ITEMS → ∀ nm ∈ l.map star_item.name,
      ((OQ_ProcessInventoryResult list2 result err ledger init).display.map
          (fun e => e.name)).count nm = 1) := by
  have hbase : ∀ (l : List star_item),
      ((l.take OQ_MAX_INVENTORY_ITEMS).map entryOfItem).map (fun e => e.name) =
        (l.map star_item.name).take OQ_MAX_INVENTORY_ITEMS := by
    intro l
    have hfun : ((fun e : oquake_inventory_entry => e.name) ∘ entryOfItem) =
        star_item.name := by
      funext it; rfl
    rw [List.map_map, hfun, List.map_take]
  constructor
  · cases list2 with
    | none =>
        rw [(Process_display_none result err ledger init).1]
        exact inv_append_local_phase_nodup _ _ _ _ (by simp)
    | some l =>
        by_cases hres : result = star_api_result_t.success
        · subst hres
          rw [Process_success_display]
          apply inv_append_local_phase_nodup
          rw [hbase]
          exact (hnodup l rfl).sublist (List.take_sublist _ _)
        · rw [(Process_display_failed l result hres err ledger init).1]
          exact inv_append_local_phase_nodup _ _ _ _ (by simp)
  · intro l hl hres hlen nm hnm
    subst hl
    subst hres
    rw [Process_success_display]
    have hnm2 : nm ∈ ((l.take OQ_MAX_INVENTORY_ITEMS).map entryOfItem).map
        (fun e => e.name) := by
      rw [hbase, List.take_of_length_le (by simpa using hlen)]
      exact hnm
    rw [inv_append_local_phase_count _ _ _ _ _ hnm2, hbase,
      List.take_of_length_le (by simpa using hlen)]
    exact count_eq_one_of_nodup_mem (hnodup l rfl) hnm

theorem C4_display_names_unique_witness :
    ((OQ_ProcessInventoryResult (some [sRemoteItem]) star_api_result_t.success none
        [sPendingEntry] true).display.map (fun e => e.name)).Nodup ∧
    ((OQ_ProcessInventoryResult (some [sRemoteItem]) star_api_result_t.success none
        [sPendingEntry] true).display.map (fun e => e.name)).count (strOf "S") = 1 :=
  ⟨(C4_display_names_unique (some [sRemoteItem]) star_api_result_t.success none
      [sPendingEntry] true (by intro l hl; cases hl; decide)).1,
   (C4_display_names_unique (some [sRemoteItem]) star_api_result_t.success none
      [sPendingEntry] true (by intro l hl; cases hl; decide)).2 [sRemoteItem] rfl rfl
      (by decide) (strOf "S") (by decide)⟩

/-! ### Grouping lemmas (C6) -/

/-- The `(mode, label)` group key an entry derives. -/
def entryKey (e : oquake_inventory_entry) : Nat × Str :=
  ((OQ_GetGroupedDisplayInfo e).2.1, (OQ_GetGroupedDisplayInfo e).1)

/-- The contribution an entry adds to its group row. -/
def entryDelta (e : oquake_inventory_entry) : Int := (OQ_GetGroupedDisplayInfo e).2.2

/-- Sum of the API-side contributions to key `(mode, label)`. -/
def keyApiSum (mode : Nat) (label : Str) : List (Nat × oquake_inventory_entry) → Int
  | [] => 0
  | p :: rest =>
      (if entryKey p.2 = (mode, label) ∧ p.2.id ≠ [] then entryDelta p.2 else 0) +
        keyApiSum mode label rest

/-- Sum of the local-side contributions to key `(mode, label)`. -/
def keyLocalSum (mode : Nat) (label : Str) : List (Nat × oquake_inventory_entry) → Int
  | [] => 0
  | p :: rest =>
      (if entryKey p.2 = (mode, label) ∧ p.2.id = [] then entryDelta p.2 else 0) +
        keyLocalSum mode label rest

/-- Is any entry of the filtered list keyed `(mode, label)`? -/
def keyAny (mode : Nat) (label : Str) : List (Nat × oquake_inventory_entry) → Bool
  | [] => false
  | p :: rest => decide (entryKey p.2 = (mode, label)) || keyAny mode label rest

/-- First row with the given key, as the scan at oquake_star_integration.c:338-341
finds it. -/
def findRow (mode : Nat) (label : Str) : List GRow → Option GRow
  | [] => none
  | r :: rest => if r.mode = mode ∧ r.label = label then some r else findRow mode label rest

theorem rowsHasKey_iff_findRow (mode : Nat) (label : Str) (rows : List GRow) :
    rowsHasKey mode label rows = true ↔ (findRow mode label rows).isSome := by
  induction rows with
  | nil => simp [rowsHasKey, findRow]
  | cons r rest ih =>
      by_cases h : r.mode = mode ∧ r.label = label
      · simp [rowsHasKey, findRow, h]
      · simp [rowsHasKey, findRow, h, ih]

theorem bumpFirstRow_keys (mode : Nat) (label : Str) (c : Int) (isApi pend : Bool)
    (rows : List GRow) :
    (bumpFirstRow mode label c isApi pend rows).map (fun r => (r.mode, r.label)) =
      rows.map (fun r => (r.mode, r.label)) := by
  induction rows with
  | nil => rfl
  | cons r rest ih =>
      by_cases h : r.mode = mode ∧ r.label = label
      · simp [bumpFirstRow, h]
      · simp [bumpFirstRow, h, ih]

theorem bumpFirstRow_findRow_same (mode : Nat) (label : Str) (c : Int)
    (isApi pend : Bool) (rows : List GRow) (r : GRow)
    (h : findRow mode label rows = some r) :
    findRow mode label (bumpFirstRow mode label c isApi pend rows) =
      some { r with
        api_sum := if isApi then r.api_sum + c else r.api_sum
        local_sum := if isApi then r.local_sum else r.local_sum + c
        value := rowValue (if isApi then r.api_sum + c else r.api_sum)
          (if isApi then r.local_sum else r.local_sum + c)
        has_pending := r.has_pending || pend } := by
  induction rows with
  | nil => simp [findRow] at h
  | cons r0 rest ih =>
      by_cases h0 : r0.mode = mode ∧ r0.label = label
      · rw [findRow, if_pos h0] at h
        injection h with h
        subst h
        simp only [bumpFirstRow, if_pos h0, findRow]
      · rw [findRow, if_neg h0] at h
        simp only [bumpFirstRow, if_neg h0, findRow]
        exact ih h

theorem bumpFirstRow_findRow_other (mode mode2 : Nat) (lab lab2 : Str) (c : Int)
    (isApi pend : Bool) (rows : List GRow) (hne : ¬(mode = mode2 ∧ lab = lab2)) :
    findRow mode2 lab2 (bumpFirstRow mode lab c isApi pend rows) =
      findRow mode2 lab2 rows := by
  induction rows with
  | nil => rfl
  | cons r0 rest ih =>
      by_cases h0 : r0.mode = mode ∧ r0.label = lab
      · have h1 : ¬(r0.mode = mode2 ∧ r0.label = lab2) := by
          rintro ⟨ha, hb⟩
          exact hne ⟨h0.1 ▸ ha, h0.2 ▸ hb⟩
        simp only [bumpFirstRow, if_pos h0, findRow]
        have h2 : ¬(({ r0 with
            api_sum := if isApi then r0.api_sum + c else r0.api_sum
            local_sum := if isApi then r0.local_sum else r0.local_sum + c
            value := rowValue (if isApi then r0.api_sum + c else r0.api_sum)
              (if isApi then r0.local_sum else r0.local_sum + c)
            has_pending := r0.has_pending || pend } : GRow).mode = mode2 ∧
            ({ r0 with
            api_sum := if isApi then r0.api_sum + c else r0.api_sum
            local_sum := if isApi then r0.local_sum else r0.local_sum + c
            value := rowValue (if isApi then r0.api_sum + c else r0.api_sum)
              (if isApi then r0.local_sum else r0.local_sum + c)
            has_pending := r0.has_pending || pend } : GRow).label = lab2) := h1
        rw [if_neg h2, if_neg h1]
      · simp only [bumpFirstRow, if_neg h0, findRow]
        by_cases h1 : r0.mode = mode2 ∧ r0.label = lab2
        · rw [if_pos h1, if_pos h1]
        · rw [if_neg h1, if_neg h1]
          exact ih

theorem findRow_append (mode : Nat) (label : Str) (rows l2 : List GRow) :
    findRow mode label (rows ++ l2) =
      match findRow mode label rows with
      | some r => some r
      | none => findRow mode label l2 := by
  induction rows with
  | nil => simp [findRow]
  | cons r0 rest ih =>
      by_cases h0 : r0.mode = mode ∧ r0.label = label
      · simp [findRow, if_pos h0]
      · simp only [List.cons_append, findRow, if_neg h0]
        exact ih

theorem rowsHasKey_false_iff (mode : Nat) (label : Str) (rows : List GRow) :
    rowsHasKey mode label rows = false ↔
      (mode, label) ∉ rows.map (fun r => (r.mode, r.label)) := by
  induction rows with
  | nil => simp [rowsHasKey]
  | cons r0 rest ih =>
      by_cases h0 : r0.mode = mode ∧ r0.label = label
      · simp [rowsHasKey, if_pos h0, h0.1, h0.2]
      · have : ¬((mode, label) = (r0.mode, r0.label)) := by
          rintro h
          exact h0 ⟨(Prod.mk.injEq _ _ _ _ ▸ h).1.symm, (Prod.mk.injEq _ _ _ _ ▸ h).2.symm⟩
        simp [rowsHasKey, if_neg h0, ih, this]

theorem findRow_none_of_hasKey_false (mode : Nat) (label : Str) (rows : List GRow)
    (h : rowsHasKey mode label rows = false) : findRow mode label rows = none := by
  rcases hf : findRow mode label rows with _ | r
  · rfl
  · have : rowsHasKey mode label rows = true :=
      (rowsHasKey_iff_findRow mode label rows).mpr (by simp [hf])
    rw [this] at h
    cases h

theorem bumpFirstRow_append_fresh (mode : Nat) (label : Str) (c : Int)
    (isApi pend : Bool) (idx : Nat) (rows : List GRow)
    (h : rowsHasKey mode label rows = false) :
    bumpFirstRow mode label c isApi pend (rows ++ [freshRow idx mode label]) =
      rows ++ [{ rep := idx, mode := mode, label := label
                 value := rowValue (if isApi then 0 + c else 0)
                   (if isApi then 0 else 0 + c)
                 api_sum := if isApi then 0 + c else 0
                 local_sum := if isApi then 0 else 0 + c
                 has_pending := false || pend }] := by
  induction rows with
  | nil => simp [bumpFirstRow, freshRow]
  | cons r0 rest ih =>
      have h0 : ¬(r0.mode = mode ∧ r0.label = label) := by
        intro hc
        simp [rowsHasKey, if_pos hc] at h
      have h2 : rowsHasKey mode label rest = false := by
        simpa [rowsHasKey, if_neg h0] using h
      simp only [List.cons_append, bumpFirstRow, if_neg h0, List.append_eq]
      rw [ih h2]

/-- The per-row value invariant maintained by the build loop: every row's value
is the clamped larger of its two side sums. -/
def RowsValueInv (rows : List GRow) : Prop :=
  ∀ r ∈ rows, r.value = rowValue r.api_sum r.local_sum

theorem bumpFirstRow_value_inv (mode : Nat) (label : Str) (c : Int)
    (isApi pend : Bool) (rows : List GRow) (h : RowsValueInv rows) :
    RowsValueInv (bumpFirstRow mode label c isApi pend rows) := by
  induction rows with
  | nil => intro r hr; cases hr
  | cons r0 rest ih =>
      by_cases h0 : r0.mode = mode ∧ r0.label = label
      · intro r hr
        simp only [bumpFirstRow, if_pos h0] at hr
        rcases List.mem_cons.mp hr with rfl | hr2
        · rfl
        · exact h r (List.mem_cons_of_mem _ hr2)
      · intro r hr
        simp only [bumpFirstRow, if_neg h0] at hr
        rcases List.mem_cons.mp hr with rfl | hr2
        · exact h r (List.mem_cons_self _ _)
        · exact ih (fun x hx => h x (List.mem_cons_of_mem _ hx)) r hr2

theorem countP_key_eq_one (mode : Nat) (label : Str) :
    ∀ (rows : List GRow),
      (rows.map (fun r => (r.mode, r.label))).Nodup →
      (findRow mode label rows).isSome →
      rows.countP (fun r => decide (r.mode = mode ∧ r.label = label)) = 1 := by
  intro rows
  induction rows with
  | nil => intro _ h; simp [findRow] at h
  | cons r0 rest ih =>
      intro hnd hf
      rw [List.map_cons] at hnd
      have hpair := List.nodup_cons.mp hnd
      by_cases h0 : r0.mode = mode ∧ r0.label = label
      · have hnotin : (r0.mode, r0.label) ∉ rest.map (fun r => (r.mode, r.label)) :=
          hpair.1
        have hzero :
            rest.countP (fun r => decide (r.mode = mode ∧ r.label = label)) = 0 := by
          rw [List.countP_eq_zero]
          intro r hr
          simp only [decide_eq_true_eq]
          rintro ⟨ha, hb⟩
          exact hnotin (List.mem_map.mpr ⟨r, hr, by rw [ha, hb, h0.1, h0.2]⟩)
        rw [List.countP_cons, hzero]
        simp [h0]
      · have hf2 : (findRow mode label rest).isSome := by
          simpa [findRow, if_neg h0] using hf
        rw [List.countP_cons, ih hpair.2 hf2]
        simp [h0]

theorem findRow_mem (mode : Nat) (label : Str) :
    ∀ (rows : List GRow) (r : GRow), findRow mode label rows = some r → r ∈ rows := by
  intro rows
  induction rows with
  | nil => intro r h; simp [findRow] at h
  | cons r0 rest ih =>
      intro r h
      by_cases h0 : r0.mode = mode ∧ r0.label = label
      · rw [findRow, if_pos h0] at h
        injection h with h
        exact h ▸ List.mem_cons_self _ _
      · rw [findRow, if_neg h0] at h
        exact List.mem_cons_of_mem _ (ih r h)

theorem bumpFirstRow_length (mode : Nat) (label : Str) (c : Int) (isApi pend : Bool)
    (rows : List GRow) :
    (bumpFirstRow mode label c isApi pend rows).length = rows.length := by
  have h := congrArg List.length (bumpFirstRow_keys mode label c isApi pend rows)
  simpa using h

theorem buildRowsGo_keys_nodup (ledger : List LocalItem) (m : Nat) :
    ∀ (xs : List (Nat × oquake_inventory_entry)) (rows : List GRow),
      (rows.map (fun r => (r.mode, r.label))).Nodup →
      ((buildRowsGo ledger m xs rows).map (fun r => (r.mode, r.label))).Nodup := by
  intro xs
  induction xs with
  | nil => intro rows h; simpa [buildRowsGo] using h
  | cons p rest ih =>
      rcases p with ⟨idx, ent⟩
      intro rows h
      simp only [buildRowsGo]
      by_cases hk : rowsHasKey (OQ_GetGroupedDisplayInfo ent).2.1
          (OQ_GetGroupedDisplayInfo ent).1 rows = true
      · rw [if_pos hk]
        apply ih
        rw [bumpFirstRow_keys]
        exact h
      · have hk2 : rowsHasKey (OQ_GetGroupedDisplayInfo ent).2.1
            (OQ_GetGroupedDisplayInfo ent).1 rows = false := by
          simpa using hk
        rw [if_neg (by simp [hk2])]
        by_cases hcap : m ≤ rows.length
        · rw [if_pos hcap]
          exact h
        · rw [if_neg hcap]
          apply ih
          rw [bumpFirstRow_append_fresh _ _ _ _ _ _ _ hk2, List.map_append]
          refine List.Nodup.append h (by simp) ?_
          intro a ha hb
          simp only [List.map_cons, List.map_nil, List.mem_singleton] at hb
          subst hb
          exact (rowsHasKey_false_iff _ _ _).mp hk2 ha

theorem buildRowsGo_value_inv (ledger : List LocalItem) (m : Nat) :
    ∀ (xs : List (Nat × oquake_inventory_entry)) (rows : List GRow),
      RowsValueInv rows → RowsValueInv (buildRowsGo ledger m xs rows) := by
  intro xs
  induction xs with
  | nil => intro rows h; simpa [buildRowsGo] using h
  | cons p rest ih =>
      rcases p with ⟨idx, ent⟩
      intro rows h
      simp only [buildRowsGo]
      by_cases hk : rowsHasKey (OQ_GetGroupedDisplayInfo ent).2.1
          (OQ_GetGroupedDisplayInfo ent).1 rows = true
      · rw [if_pos hk]
        exact ih _ (bumpFirstRow_value_inv _ _ _ _ _ _ h)
      · have hk2 : rowsHasKey (OQ_GetGroupedDisplayInfo ent).2.1
            (OQ_GetGroupedDisplayInfo ent).1 rows = false := by
          simpa using hk
        rw [if_neg (by simp [hk2])]
        by_cases hcap : m ≤ rows.length
        · rw [if_pos hcap]
          exact h
        · rw [if_neg hcap]
          apply ih
          rw [bumpFirstRow_append_fresh _ _ _ _ _ _ _ hk2]
          intro r hr
          rcases List.mem_append.mp hr with hr2 | hr2
          · exact h r hr2
          · rw [List.mem_singleton.mp hr2]

/-- A fresh row immediately after its creating contribution has been applied
(create at oquake_star_integration.c:342-351, then the accumulation step). -/
def bumpedFreshRow (idx mode : Nat) (label : Str) (c : Int) (isApi pend : Bool) :
    GRow :=
  { rep := idx, mode := mode, label := label
    value := rowValue (if isApi then 0 + c else 0) (if isApi then 0 else 0 + c)
    api_sum := if isApi then 0 + c else 0
    local_sum := if isApi then 0 else 0 + c
    has_pending := false || pend }

theorem bumpFirstRow_append_fresh2 (mode : Nat) (label : Str) (c : Int)
    (isApi pend : Bool) (idx : Nat) (rows : List GRow)
    (h : rowsHasKey mode label rows = false) :
    bumpFirstRow mode label c isApi pend (rows ++ [freshRow idx mode label]) =
      rows ++ [bumpedFreshRow idx mode label c isApi pend] :=
  bumpFirstRow_append_fresh mode label c isApi pend idx rows h

theorem buildRowsGo_sums (ledger : List LocalItem) (m : Nat) :
    ∀ (xs : List (Nat × oquake_inventory_entry)) (rows : List GRow),
      (rows.map (fun r => (r.mode, r.label))).Nodup →
      RowsValueInv rows →
      rows.length + xs.length ≤ m →
      ∀ (mode : Nat) (label : Str),
        (((findRow mode label rows).isSome || keyAny mode label xs) = true →
          ∃ r2, findRow mode label (buildRowsGo ledger m xs rows) = some r2 ∧
            r2.api_sum = ((findRow mode label rows).map GRow.api_sum).getD 0 +
              keyApiSum mode label xs ∧
            r2.local_sum = ((findRow mode label rows).map GRow.local_sum).getD 0 +
              keyLocalSum mode label xs ∧
            r2.value = rowValue r2.api_sum r2.local_sum) ∧
        (((findRow mode label rows).isSome || keyAny mode label xs) = false →
          findRow mode label (buildRowsGo ledger m xs rows) = none) := by
  intro xs
  induction xs with
  | nil =>
      intro rows hnd hinv hlen mode label
      constructor
      · intro hp
        simp only [keyAny, Bool.or_false] at hp
        rcases Option.isSome_iff_exists.mp hp with ⟨r, hr⟩
        refine ⟨r, by simpa [buildRowsGo] using hr, ?_, ?_, ?_⟩
        · simp [hr, keyApiSum]
        · simp [hr, keyLocalSum]
        · exact hinv r (findRow_mem _ _ _ _ hr)
      · intro hp
        simp only [keyAny, Bool.or_false] at hp
        simp only [buildRowsGo]
        simpa using hp
  | cons p rest ih =>
      rcases p with ⟨idx, ent⟩
      intro rows hnd hinv hlen mode label
      by_cases hk : rowsHasKey (OQ_GetGroupedDisplayInfo ent).2.1
          (OQ_GetGroupedDisplayInfo ent).1 rows = true
      · -- The entry's key already has a row; that row is bumped.
        have hbuild : buildRowsGo ledger m ((idx, ent) :: rest) rows =
            buildRowsGo ledger m rest
              (bumpFirstRow (OQ_GetGroupedDisplayInfo ent).2.1
                (OQ_GetGroupedDisplayInfo ent).1 (OQ_GetGroupedDisplayInfo ent).2.2
                (decide (ent.id ≠ [])) (ledgerHasPendingName ledger ent.name) rows) := by
          simp only [buildRowsGo, if_pos hk]
        rcases Option.isSome_iff_exists.mp ((rowsHasKey_iff_findRow _ _ _).mp hk)
          with ⟨r0, hr0⟩
        have hbump := bumpFirstRow_findRow_same (OQ_GetGroupedDisplayInfo ent).2.1
          (OQ_GetGroupedDisplayInfo ent).1 (OQ_GetGroupedDisplayInfo ent).2.2
          (decide (ent.id ≠ [])) (ledgerHasPendingName ledger ent.name) rows r0 hr0
        have hnd2 : ((bumpFirstRow (OQ_GetGroupedDisplayInfo ent).2.1
            (OQ_GetGroupedDisplayInfo ent).1 (OQ_GetGroupedDisplayInfo ent).2.2
            (decide (ent.id ≠ [])) (ledgerHasPendingName ledger ent.name) rows).map
              (fun r => (r.mode, r.label))).Nodup := by
          rw [bumpFirstRow_keys]; exact hnd
        have hinv2 := bumpFirstRow_value_inv (OQ_GetGroupedDisplayInfo ent).2.1
          (OQ_GetGroupedDisplayInfo ent).1 (OQ_GetGroupedDisplayInfo ent).2.2
          (decide (ent.id ≠ [])) (ledgerHasPendingName ledger ent.name) rows hinv
        have hlen2 : (bumpFirstRow (OQ_GetGroupedDisplayInfo ent).2.1
            (OQ_GetGroupedDisplayInfo ent).1 (OQ_GetGroupedDisplayInfo ent).2.2
            (decide (ent.id ≠ [])) (ledgerHasPendingName ledger ent.name)
              rows).length + rest.length ≤ m := by
          rw [bumpFirstRow_length]
          simp only [List.length_cons] at hlen
          omega
        have IH := ih _ hnd2 hinv2 hlen2 mode label
        by_cases hkey : (OQ_GetGroupedDisplayInfo ent).2.1 = mode ∧
            (OQ_GetGroupedDisplayInfo ent).1 = label
        · obtain ⟨rfl, rfl⟩ := hkey
          constructor
          · intro _
            obtain ⟨r2, hfr2, hapi, hloc, hval⟩ := IH.1 (by rw [hbump]; simp)
            refine ⟨r2, by rw [hbuild]; exact hfr2, ?_, ?_, hval⟩
            · rw [hbump] at hapi
              rw [hr0]
              simp only [Option.map_some', Option.getD_some] at hapi ⊢
              simp only [keyApiSum, entryKey, entryDelta]
              by_cases hid : ent.id = []
              · simp [hid] at hapi ⊢
                omega
              · simp [hid] at hapi ⊢
                omega
            · rw [hbump] at hloc
              rw [hr0]
              simp only [Option.map_some', Option.getD_some] at hloc ⊢
              simp only [keyLocalSum, entryKey, entryDelta]
              by_cases hid : ent.id = []
              · simp [hid] at hloc ⊢
                omega
              · simp [hid] at hloc ⊢
                omega
          · intro hp
            rw [hr0] at hp
            simp at hp
        · have hpairne : ¬(entryKey ent = (mode, label)) := by
            simp only [entryKey, Prod.mk.injEq]
            exact hkey
          have hother := bumpFirstRow_findRow_other (OQ_GetGroupedDisplayInfo ent).2.1
            mode (OQ_GetGroupedDisplayInfo ent).1 label
            (OQ_GetGroupedDisplayInfo ent).2.2 (decide (ent.id ≠ []))
            (ledgerHasPendingName ledger ent.name) rows hkey
          constructor
          · intro hp
            obtain ⟨r2, hfr2, hapi, hloc, hval⟩ := IH.1 (by
              rw [hother]
              simpa [keyAny, hpairne] using hp)
            refine ⟨r2, by rw [hbuild]; exact hfr2, ?_, ?_, hval⟩
            · rw [hother] at hapi
              simp only [keyApiSum, entryDelta]
              rw [if_neg (fun hc => hpairne hc.1)]
              omega
            · rw [hother] at hloc
              simp only [keyLocalSum, entryDelta]
              rw [if_neg (fun hc => hpairne hc.1)]
              omega
          · intro hp
            rw [hbuild]
            refine IH.2 ?_
            rw [hother]
            simpa [keyAny, hpairne] using hp
      · -- No row for the entry's key yet: a fresh row is created and bumped.
        have hk2 : rowsHasKey (OQ_GetGroupedDisplayInfo ent).2.1
            (OQ_GetGroupedDisplayInfo ent).1 rows = false := by simpa using hk
        by_cases hcap : m ≤ rows.length
        · exfalso
          simp only [List.length_cons] at hlen
          omega
        · have hbuild : buildRowsGo ledger m ((idx, ent) :: rest) rows =
              buildRowsGo ledger m rest (rows ++
                [bumpedFreshRow idx (OQ_GetGroupedDisplayInfo ent).2.1
                  (OQ_GetGroupedDisplayInfo ent).1 (OQ_GetGroupedDisplayInfo ent).2.2
                  (decide (ent.id ≠ [])) (ledgerHasPendingName ledger ent.name)]) := by
            simp only [buildRowsGo, if_neg hk, if_neg hcap]
            rw [bumpFirstRow_append_fresh2 _ _ _ _ _ _ _ hk2]
          have hfnone := findRow_none_of_hasKey_false (OQ_GetGroupedDisplayInfo ent).2.1
            (OQ_GetGroupedDisplayInfo ent).1 rows hk2
          have hbfkeys : (rows ++
              [bumpedFreshRow idx (OQ_GetGroupedDisplayInfo ent).2.1
                (OQ_GetGroupedDisplayInfo ent).1 (OQ_GetGroupedDisplayInfo ent).2.2
                (decide (ent.id ≠ [])) (ledgerHasPendingName ledger ent.name)]).map
                  (fun r => (r.mode, r.label)) =
              rows.map (fun r => (r.mode, r.label)) ++
                [((OQ_GetGroupedDisplayInfo ent).2.1, (OQ_GetGroupedDisplayInfo ent).1)] := by
            simp [bumpedFreshRow]
          have hnd2 : ((rows ++
              [bumpedFreshRow idx (OQ_GetGroupedDisplayInfo ent).2.1
                (OQ_GetGroupedDisplayInfo ent).1 (OQ_GetGroupedDisplayInfo ent).2.2
                (decide (ent.id ≠ [])) (ledgerHasPendingName ledger ent.name)]).map
                  (fun r => (r.mode, r.label))).Nodup := by
            rw [hbfkeys]
            refine List.Nodup.append hnd (by simp) ?_
            intro a ha hb
            rw [List.mem_singleton.mp hb] at ha
            exact (rowsHasKey_false_iff _ _ _).mp hk2 ha
          have hinv2 : RowsValueInv (rows ++
              [bumpedFreshRow idx (OQ_GetGroupedDisplayInfo ent).2.1
                (OQ_GetGroupedDisplayInfo ent).1 (OQ_GetGroupedDisplayInfo ent).2.2
                (decide (ent.id ≠ [])) (ledgerHasPendingName ledger ent.name)]) := by
            intro r hr
            rcases List.mem_append.mp hr with hr2 | hr2
            · exact hinv r hr2
            · rw [List.mem_singleton.mp hr2]
              rfl
          have hlen2 : (rows ++
              [bumpedFreshRow idx (OQ_GetGroupedDisplayInfo ent).2.1
                (OQ_GetGroupedDisplayInfo ent).1 (OQ_GetGroupedDisplayInfo ent).2.2
                (decide (ent.id ≠ []))
                (ledgerHasPendingName ledger ent.name)]).length + rest.length ≤ m := by
            simp only [List.length_append, List.length_cons, List.length_nil]
            simp only [List.length_cons] at hlen
            omega
          have IH := ih _ hnd2 hinv2 hlen2 mode label
          by_cases hkey : (OQ_GetGroupedDisplayInfo ent).2.1 = mode ∧
              (OQ_GetGroupedDisplayInfo ent).1 = label
          · obtain ⟨rfl, rfl⟩ := hkey
            have hfind2 : findRow (OQ_GetGroupedDisplayInfo ent).2.1
                (OQ_GetGroupedDisplayInfo ent).1 (rows ++
                [bumpedFreshRow idx (OQ_GetGroupedDisplayInfo ent).2.1
                  (OQ_GetGroupedDisplayInfo ent).1 (OQ_GetGroupedDisplayInfo ent).2.2
                  (decide (ent.id ≠ [])) (ledgerHasPendingName ledger ent.name)]) =
                some (bumpedFreshRow idx (OQ_GetGroupedDisplayInfo ent).2.1
                  (OQ_GetGroupedDisplayInfo ent).1 (OQ_GetGroupedDisplayInfo ent).2.2
                  (decide (ent.id ≠ [])) (ledgerHasPendingName ledger ent.name)) := by
              rw [findRow_append, hfnone]
              simp [findRow, bumpedFreshRow]
            constructor
            · intro _
              obtain ⟨r2, hfr2, hapi, hloc, hval⟩ := IH.1 (by rw [hfind2]; simp)
              refine ⟨r2, by rw [hbuild]; exact hfr2, ?_, ?_, hval⟩
              · rw [hfind2] at hapi
                rw [hfnone]
                simp only [Option.map_some', Option.getD_some, bumpedFreshRow] at hapi
                simp only [Option.map_none', Option.getD_none]
                simp only [keyApiSum, entryKey, entryDelta]
                by_cases hid : ent.id = []
                · simp [hid] at hapi ⊢
                  omega
                · simp [hid] at hapi ⊢
                  omega
              · rw [hfind2] at hloc
                rw [hfnone]
                simp only [Option.map_some', Option.getD_some, bumpedFreshRow] at hloc
                simp only [Option.map_none', Option.getD_none]
                simp only [keyLocalSum, entryKey, entryDelta]
                by_cases hid : ent.id = []
                · simp [hid] at hloc ⊢
                  omega
                · simp [hid] at hloc ⊢
                  omega
            · intro hp
              simp [keyAny, entryKey] at hp
          · have hpairne : ¬(entryKey ent = (mode, label)) := by
              simp only [entryKey, Prod.mk.injEq]
              exact hkey
            have hfind2 : findRow mode label (rows ++
                [bumpedFreshRow idx (OQ_GetGroupedDisplayInfo ent).2.1
                  (OQ_GetGroupedDisplayInfo ent).1 (OQ_GetGroupedDisplayInfo ent).2.2
                  (decide (ent.id ≠ [])) (ledgerHasPendingName ledger ent.name)]) =
                findRow mode label rows := by
              rw [findRow_append]
              cases hfr : findRow mode label rows with
              | none => simp [findRow, bumpedFreshRow, hkey]
              | some r => rfl
            constructor
            · intro hp
              obtain ⟨r2, hfr2, hapi, hloc, hval⟩ := IH.1 (by
                rw [hfind2]
                simpa [keyAny, hpairne] using hp)
              refine ⟨r2, by rw [hbuild]; exact hfr2, ?_, ?_, hval⟩
              · rw [hfind2] at hapi
                simp only [keyApiSum, entryDelta]
                rw [if_neg (fun hc => hpairne hc.1)]
                omega
              · rw [hfind2] at hloc
                simp only [keyLocalSum, entryDelta]
                rw [if_neg (fun hc => hpairne hc.1)]
                omega
            · intro hp
              rw [hbuild]
              refine IH.2 ?_
              rw [hfind2]
              simpa [keyAny, hpairne] using hp

theorem entryDelta_pos (e : oquake_inventory_entry) : 1 ≤ entryDelta e := by
  simp only [entryDelta, OQ_GetGroupedDisplayInfo]
  split_ifs <;> simp <;> omega

theorem keyApiSum_nonneg (mode : Nat) (label : Str) :
    ∀ xs, 0 ≤ keyApiSum mode label xs := by
  intro xs
  induction xs with
  | nil => simp [keyApiSum]
  | cons p rest ih =>
      simp only [keyApiSum]
      have := entryDelta_pos p.2
      split_ifs <;> omega

theorem keyLocalSum_nonneg (mode : Nat) (label : Str) :
    ∀ xs, 0 ≤ keyLocalSum mode label xs := by
  intro xs
  induction xs with
  | nil => simp [keyLocalSum]
  | cons p rest ih =>
      simp only [keyLocalSum]
      have := entryDelta_pos p.2
      split_ifs <;> omega

theorem keyApiSum_eq_zero_of_all_local (mode : Nat) (label : Str) :
    ∀ xs, (∀ p ∈ xs, entryKey p.2 = (mode, label) → p.2.id = []) →
      keyApiSum mode label xs = 0 := by
  intro xs
  induction xs with
  | nil => intro _; rfl
  | cons p rest ih =>
      intro hall
      simp only [keyApiSum]
      rw [if_neg (fun hc => hc.2 (hall p (List.mem_cons_self _ _) hc.1)),
        ih (fun q hq => hall q (List.mem_cons_of_mem _ hq))]
      omega

theorem keyLocalSum_pos_of_any (mode : Nat) (label : Str) :
    ∀ xs, keyAny mode label xs = true →
      (∀ p ∈ xs, entryKey p.2 = (mode, label) → p.2.id = []) →
      1 ≤ keyLocalSum mode label xs := by
  intro xs
  induction xs with
  | nil => intro h _; simp [keyAny] at h
  | cons p rest ih =>
      intro hany hall
      simp only [keyLocalSum]
      by_cases hkp : entryKey p.2 = (mode, label)
      · rw [if_pos ⟨hkp, hall p (List.mem_cons_self _ _) hkp⟩]
        have h1 := entryDelta_pos p.2
        have h2 := keyLocalSum_nonneg mode label rest
        omega
      · rw [if_neg (fun hc => hkp hc.1)]
        have hany2 : keyAny mode label rest = true := by
          simpa [keyAny, hkp] using hany
        have := ih hany2 (fun q hq => hall q (List.mem_cons_of_mem _ hq))
        omega

theorem rowValue_zero_left (b : Int) (hb : 1 ≤ b) : rowValue 0 b = b := by
  simp only [rowValue]
  split_ifs <;> omega

/-- C6 (amended): for every display list within the 256-entry capacity, every
ledger and tab, and every `(mode, label)` group key derived by at least one
tab-matching entry, OQ_BuildGroupedRows produces exactly one row for that key;
its API-side and local-side sums are the sums of the per-pickup deltas of the
contributing entries on each side, and its value is the LARGER of the two side
sums, clamped to at least 1 — not their combined total.  In particular, when all
contributing pickups are on one side (here: all local-only), the value does equal
the sum d1+...+dn of their parsed deltas. -/
theorem C6_grouping_one_row_per_key (display : List oquake_inventory_entry)
    (ledger : List LocalItem) (tab : Nat) (mode : Nat) (label : Str)
    (hlen : display.length ≤ OQ_MAX_INVENTORY_ITEMS)
    (hany : keyAny mode label (OQ_BuildFilteredIndices display tab) = true) :
    ((OQ_BuildGroupedRows display ledger tab OQ_MAX_INVENTORY_ITEMS).countP
        (fun r => decide (r.mode = mode ∧ r.label = label)) = 1) ∧
    (∃ r, findRow mode label
        (OQ_BuildGroupedRows display ledger tab OQ_MAX_INVENTORY_ITEMS) = some r ∧
      r.api_sum = keyApiSum mode label (OQ_BuildFilteredIndices display tab) ∧
      r.local_sum = keyLocalSum mode label (OQ_BuildFilteredIndices display tab) ∧
      r.value = rowValue r.api_sum r.local_sum ∧
      ((∀ p ∈ OQ_BuildFilteredIndices display tab,
          entryKey p.2 = (mode, label) → p.2.id = []) →
        r.value = keyLocalSum mode label (OQ_BuildFilteredIndices display tab))) := by
  have hxslen : (OQ_BuildFilteredIndices display tab).length ≤
      OQ_MAX_INVENTORY_ITEMS := by
    refine le_trans ?_ hlen
    calc (OQ_BuildFilteredIndices display tab).length
        ≤ display.enum.length := List.length_filter_le _ _
      _ = display.length := List.enum_length
  have hmain := buildRowsGo_sums ledger OQ_MAX_INVENTORY_ITEMS
    (OQ_BuildFilteredIndices display tab) [] (by simp) (fun r hr => absurd hr
      (List.not_mem_nil r)) (by simpa using hxslen) mode label
  obtain ⟨r2, hfr, hapi, hloc, hval⟩ := hmain.1 (by simp [findRow, hany])
  have hrows : OQ_BuildGroupedRows display ledger tab OQ_MAX_INVENTORY_ITEMS =
      buildRowsGo ledger OQ_MAX_INVENTORY_ITEMS
        (OQ_BuildFilteredIndices display tab) [] := rfl
  simp only [findRow, Option.map_none', Option.getD_none, zero_add] at hapi hloc hfr
  constructor
  · rw [hrows]
    refine countP_key_eq_one mode label _ ?_ ?_
    · exact buildRowsGo_keys_nodup ledger OQ_MAX_INVENTORY_ITEMS _ [] (by simp)
    · rw [hfr]
      rfl
  · refine ⟨r2, by rw [hrows]; exact hfr, hapi, hloc, hval, ?_⟩
    intro hall
    have hz := keyApiSum_eq_zero_of_all_local mode label _ hall
    have hpos := keyLocalSum_pos_of_any mode label _ hany hall
    rw [hval, hapi, hloc, hz, rowValue_zero_left _ hpos]

/-- A remote-sourced "Shells" display entry (non-empty STAR Guid). -/
def eApiShells : oquake_inventory_entry :=
  { name := strOf "Shells", description := strOf "Shells pickup +25",
    item_type := strOf "Ammo", id := strOf "abc", game_source := strOf "Quake",
    quantity := 25 }

/-- A local-only "Shells" pickup event entry (empty id, suffixed name). -/
def eLocalShells1 : oquake_inventory_entry :=
  { name := strOf "Shells_000001", description := strOf "Shells pickup +25",
    item_type := strOf "Ammo", id := [], game_source := strOf "Quake",
    quantity := 1 }

/-- A second local-only "Shells" pickup event entry. -/
def eLocalShells2 : oquake_inventory_entry :=
  { name := strOf "Shells_000002", description := strOf "Shells pickup +10",
    item_type := strOf "Ammo", id := [], game_source := strOf "Quake",
    quantity := 1 }

theorem C6_grouping_one_row_per_key_witness :
    ((OQ_BuildGroupedRows [eLocalShells1, eLocalShells2] [] OQ_TAB_AMMO
        OQ_MAX_INVENTORY_ITEMS).countP
      (fun r => decide (r.mode = OQ_GROUP_MODE_SUM ∧
        r.label = strOf "Shells (OQUAKE)")) = 1) ∧
    (∃ r, findRow OQ_GROUP_MODE_SUM (strOf "Shells (OQUAKE)")
        (OQ_BuildGroupedRows [eLocalShells1, eLocalShells2] [] OQ_TAB_AMMO
          OQ_MAX_INVENTORY_ITEMS) = some r ∧
      r.api_sum = keyApiSum OQ_GROUP_MODE_SUM (strOf "Shells (OQUAKE)")
        (OQ_BuildFilteredIndices [eLocalShells1, eLocalShells2] OQ_TAB_AMMO) ∧
      r.local_sum = keyLocalSum OQ_GROUP_MODE_SUM (strOf "Shells (OQUAKE)")
        (OQ_BuildFilteredIndices [eLocalShells1, eLocalShells2] OQ_TAB_AMMO) ∧
      r.value = rowValue r.api_sum r.local_sum ∧
      ((∀ p ∈ OQ_BuildFilteredIndices [eLocalShells1, eLocalShells2] OQ_TAB_AMMO,
          entryKey p.2 = (OQ_GROUP_MODE_SUM, strOf "Shells (OQUAKE)") →
            p.2.id = []) →
        r.value = keyLocalSum OQ_GROUP_MODE_SUM (strOf "Shells (OQUAKE)")
          (OQ_BuildFilteredIndices [eLocalShells1, eLocalShells2] OQ_TAB_AMMO))) :=
  C6_grouping_one_row_per_key [eLocalShells1, eLocalShells2] [] OQ_TAB_AMMO
    OQ_GROUP_MODE_SUM (strOf "Shells (OQUAKE)") (by decide) (by decide)

/-- C6 counterexample: two pickups of the stackable "Shells" item with parsed
deltas 25 and 25 that derive the same `(label, SUM)` key, one remote-sourced and
one local-only.  The single row's value is max(25, 25) = 25, not the sum 50. -/
theorem C6_counterexample_mixed_sides :
    ((OQ_BuildGroupedRows [eApiShells, eLocalShells1] [] OQ_TAB_AMMO
        OQ_MAX_INVENTORY_ITEMS).map (fun r => r.value) = [25]) ∧
    entryKey eApiShells = entryKey eLocalShells1 ∧
    (OQ_GetGroupedDisplayInfo eApiShells).2.1 = OQ_GROUP_MODE_SUM ∧
    entryDelta eApiShells = 25 ∧
    entryDelta eLocalShells1 = 25 ∧
    entryDelta eApiShells + entryDelta eLocalShells1 = 50 ∧
    (25 : Int) ≠ 50 := by
  refine ⟨by decide, by decide, by decide, by decide, by decide, by decide, by decide⟩
